import Mathlib

/-!
Shallow embedding of the dnssd resolver core (Go package `dnssd`): the record
model, the TTL-aware cache of mDNS resource records, the question planner, and
the browse-request handler of the resolver event loop, together with theorems
settling the specification claims about them.

Modelling conventions:
* `time.Duration` (an int64 count of nanoseconds) is embedded as `Int`; no
  claim exercises 64-bit overflow, all TTL arithmetic stays far below 2^63.
* Go maps are embedded as association lists with `lookupKey` (map read) and
  `insertKey` (map assignment `m[k] = v`).  Theorems are stated through lookup
  and membership so that they do not depend on any iteration order.
* `net.IP` is consulted by this package only through `String()` (used to build
  map keys) and `To4() != nil` (the IPv4 test), so it is embedded as the pair
  of those two observations.
* Functions whose Go original can panic (an out-of-bounds index) return
  `Option`.
-/

/-- Go `time.Duration`: a count of nanoseconds. -/
abbrev Duration := Int

/-- Go `type hostName string`. -/
abbrev hostName := String

/-- Go `type serviceInstanceName string`. -/
abbrev serviceInstanceName := String

/-- Go `type serviceName string`. -/
abbrev serviceName := String

/-- `net.IP` as observed by this package: its `String()` rendering and
whether `To4()` returns non-nil (IPv4 test). -/
structure netIP where
  str : String
  isV4 : Bool
deriving DecidableEq, Repr

/-- `resourceRecord`: fields common to all resource records. -/
structure resourceRecord where
  cacheFlush : Bool
  initialTimeToLive : Duration
  remainingTimeToLive : Duration
deriving DecidableEq, Repr

/-- `addressRecord`: received address information (A / AAAA).  The field `rr`
is Go's embedded `resourceRecord`. -/
structure addressRecord where
  address : netIP
  name : hostName
  rr : resourceRecord
deriving DecidableEq, Repr

/-- `pointerRecord`: information received for an instance's PTR record. -/
structure pointerRecord where
  instanceName : serviceInstanceName
  serviceName : serviceName
  rr : resourceRecord
deriving DecidableEq, Repr

/-- `serviceRecord`: information received for an instance's SRV record. -/
structure serviceRecord where
  instanceName : serviceInstanceName
  port : Nat
  serviceName : serviceName
  target : hostName
  rr : resourceRecord
deriving DecidableEq, Repr

/-- `textRecord`: information received for an instance's TXT record;
`values` embeds the Go `map[string]string` as an association list. -/
structure textRecord where
  instanceName : serviceInstanceName
  serviceName : serviceName
  values : List (String × String)
  rr : resourceRecord
deriving DecidableEq, Repr

/-- `addressRecordID`: unique identifier of an address record. -/
structure addressRecordID where
  address : String
  name : hostName
deriving DecidableEq, Repr

/-- `serviceInstanceID`: unique identifier of a fully resolved service
instance. -/
structure serviceInstanceID where
  address : String
  name : serviceInstanceName
deriving DecidableEq, Repr

/-- `ServiceInstance`: a discovered instance of a service. -/
structure ServiceInstance where
  Address : netIP
  InstanceName : String
  Port : Nat
  ServiceName : String
  TextRecords : List (String × String)
deriving DecidableEq, Repr

/-- `questionType` with its five constants (`questionTypeIPv4Address`,
`questionTypeIPv6Address`, `questionTypePointer`, `questionTypeService`,
`questionTypeText`). -/
inductive questionType where
  | ipv4Address
  | ipv6Address
  | pointer
  | service
  | text
deriving DecidableEq, Repr

/-- `question`: a DNS question (name, type). -/
structure question where
  name : String
  questionType : questionType
deriving DecidableEq, Repr

/-- Read of a Go map embedded as an association list. -/
def lookupKey [DecidableEq K] : List (K × V) → K → Option V
  | [], _ => none
  | (k, v) :: rest, key => if k = key then some v else lookupKey rest key

/-- Go map assignment `m[k] = v` on the association-list embedding. -/
def insertKey [DecidableEq K] : List (K × V) → K → V → List (K × V)
  | [], key, value => [(key, value)]
  | (k, v) :: rest, key, value =>
      if k = key then (key, value) :: rest else (k, v) :: insertKey rest key value

/-- `cache`: the four keyed containers of received resource records. -/
structure cache where
  addressRecords : List (addressRecordID × addressRecord)
  pointerRecords : List (serviceInstanceName × pointerRecord)
  serviceRecords : List (serviceInstanceName × serviceRecord)
  textRecords : List (serviceInstanceName × textRecord)
deriving DecidableEq, Repr

/-- `newCache`: the empty cache. -/
def newCache : cache :=
  { addressRecords := [], pointerRecords := [], serviceRecords := [], textRecords := [] }

/-- `(*addressRecord).getID`. -/
def addressRecord.getID (a : addressRecord) : addressRecordID :=
  { address := a.address.str, name := a.name }

/-- `(*addressRecord).isIPv4`: `a.address.To4() != nil`. -/
def addressRecord.isIPv4 (a : addressRecord) : Bool :=
  a.address.isV4

/-- `(*addressRecord).getQuestion`: the question refreshing this address
record, typed by the address's IP version. -/
def addressRecord.getQuestion (a : addressRecord) : question :=
  { name := a.name,
    questionType := if a.isIPv4 then questionType.ipv4Address else questionType.ipv6Address }

/-- `(*ServiceInstance).getID`. -/
def ServiceInstance.getID (s : ServiceInstance) : serviceInstanceID :=
  { address := s.Address.str, name := s.InstanceName }

/-- `cache.onAddressRecordReceived`: merge an incoming address record;
returns the updated cache and whether the cache changed. -/
def cache.onAddressRecordReceived (c : cache) (record : addressRecord) : cache × Bool :=
  let id := record.getID
  match lookupKey c.addressRecords id with
  | none => ({ c with addressRecords := insertKey c.addressRecords id record }, true)
  | some existingRecord =>
      if record.rr.cacheFlush
          || record.rr.remainingTimeToLive > existingRecord.rr.remainingTimeToLive then
        ({ c with addressRecords := insertKey c.addressRecords id record }, true)
      else
        (c, false)

/-- `cache.onPointerRecordReceived`. -/
def cache.onPointerRecordReceived (c : cache) (record : pointerRecord) : cache × Bool :=
  match lookupKey c.pointerRecords record.instanceName with
  | none =>
      ({ c with pointerRecords := insertKey c.pointerRecords record.instanceName record }, true)
  | some existingRecord =>
      if record.rr.cacheFlush
          || record.rr.remainingTimeToLive > existingRecord.rr.remainingTimeToLive then
        ({ c with pointerRecords := insertKey c.pointerRecords record.instanceName record }, true)
      else
        (c, false)

/-- `cache.onServiceRecordReceived`. -/
def cache.onServiceRecordReceived (c : cache) (record : serviceRecord) : cache × Bool :=
  match lookupKey c.serviceRecords record.instanceName with
  | none =>
      ({ c with serviceRecords := insertKey c.serviceRecords record.instanceName record }, true)
  | some existingRecord =>
      if record.rr.cacheFlush
          || record.rr.remainingTimeToLive > existingRecord.rr.remainingTimeToLive then
        ({ c with serviceRecords := insertKey c.serviceRecords record.instanceName record }, true)
      else
        (c, false)

/-- `cache.onTextRecordReceived`. -/
def cache.onTextRecordReceived (c : cache) (record : textRecord) : cache × Bool :=
  match lookupKey c.textRecords record.instanceName with
  | none =>
      ({ c with textRecords := insertKey c.textRecords record.instanceName record }, true)
  | some existingRecord =>
      if record.rr.cacheFlush
          || record.rr.remainingTimeToLive > existingRecord.rr.remainingTimeToLive then
        ({ c with textRecords := insertKey c.textRecords record.instanceName record }, true)
      else
        (c, false)

/-- `resourceRecord.remainingTimeToLive -= duration` on the embedded header. -/
def resourceRecord.elapse (r : resourceRecord) (duration : Duration) : resourceRecord :=
  { r with remainingTimeToLive := r.remainingTimeToLive - duration }

/-- One family's pass of `cache.onTimeElapsed`: apply `tick` (the TTL
decrement) to every record, keep the record when `alive` (remaining TTL still
positive), delete it otherwise.  Returns the surviving entries and whether any
entry was evicted. -/
def elapseRecords (tick : V → V) (alive : V → Bool) : List (K × V) → List (K × V) × Bool
  | [] => ([], false)
  | (k, v) :: rest =>
      let passed := elapseRecords tick alive rest
      let v2 := tick v
      if alive v2 then ((k, v2) :: passed.1, passed.2) else (passed.1, true)

/-- `cache.onTimeElapsed`: age every record by `duration`, evicting those
whose remaining time-to-live drops to zero or below; returns the new cache and
whether any record was evicted. -/
def cache.onTimeElapsed (c : cache) (duration : Duration) : cache × Bool :=
  let addresses := elapseRecords
    (fun r : addressRecord => { r with rr := r.rr.elapse duration })
    (fun r => decide (0 < r.rr.remainingTimeToLive)) c.addressRecords
  let pointers := elapseRecords
    (fun r : pointerRecord => { r with rr := r.rr.elapse duration })
    (fun r => decide (0 < r.rr.remainingTimeToLive)) c.pointerRecords
  let services := elapseRecords
    (fun r : serviceRecord => { r with rr := r.rr.elapse duration })
    (fun r => decide (0 < r.rr.remainingTimeToLive)) c.serviceRecords
  let texts := elapseRecords
    (fun r : textRecord => { r with rr := r.rr.elapse duration })
    (fun r => decide (0 < r.rr.remainingTimeToLive)) c.textRecords
  ({ addressRecords := addresses.1, pointerRecords := pointers.1,
     serviceRecords := services.1, textRecords := texts.1 },
   addresses.2 || pointers.2 || services.2 || texts.2)

/-- The bucket `addressRecordsByHostName(records)[host]`: every cached address
record whose host name is `host` (the grouped index built by
`addressRecordsByHostName`, read at one host name). -/
def addressRecordsForHost (records : List (addressRecordID × addressRecord))
    (host : hostName) : List addressRecord :=
  (records.map Prod.snd).filter (fun r => r.name == host)

/-- The bucket `pointerRecordsByService(records)[s]`: every cached pointer
record whose service-name field is `s`. -/
def pointerRecordsForService (records : List (serviceInstanceName × pointerRecord))
    (s : serviceName) : List pointerRecord :=
  (records.map Prod.snd).filter (fun r => r.serviceName == s)

/-- `cache.toResolvedInstances`: the set of fully resolved service instances,
keyed by `ServiceInstance.getID`.  Iterates the keys of `pointerRecords`,
requires the SRV and TXT records for that instance name, and emits one
instance per cached address record of the SRV target. -/
def cache.toResolvedInstances (c : cache) : List (serviceInstanceID × ServiceInstance) :=
  c.pointerRecords.flatMap (fun entry =>
    let instanceName := entry.1
    match lookupKey c.serviceRecords instanceName with
    | none => []
    | some record =>
        match lookupKey c.textRecords instanceName with
        | none => []
        | some text =>
            (addressRecordsForHost c.addressRecords record.target).map (fun a =>
              let inst : ServiceInstance :=
                { Address := a.address, InstanceName := instanceName,
                  Port := record.port, ServiceName := record.serviceName,
                  TextRecords := text.values }
              (inst.getID, inst)))

/-- `resourceRecord.isCloseToExpiring`: more than 80% of the initial
time-to-live has elapsed.  The Go code compares
`elapsed.Seconds() / initial.Seconds() > 0.8`; over the exact nanosecond
counts the common factor 10^9 cancels and the test is
`5 * elapsed > 4 * initial`. -/
def resourceRecord.isCloseToExpiring (r : resourceRecord) : Bool :=
  decide (5 * (r.initialTimeToLive - r.remainingTimeToLive) > 4 * r.initialTimeToLive)

/-- `questions[question] = true`: insertion into the set-valued question
accumulator, embedded as a duplicate-free list. -/
def addQuestion (questions : List question) (q : question) : List question :=
  if questions.contains q then questions else q :: questions

/-- Loop body of the pointer-record pass of
`cache.getQuestionsForExpiringRecords`. -/
def expiringPointerStep (browseSet : List serviceName)
    (qs : List question) (entry : serviceInstanceName × pointerRecord) : List question :=
  let pointer := entry.2
  if browseSet.contains pointer.serviceName && pointer.rr.isCloseToExpiring then
    addQuestion qs { name := pointer.instanceName, questionType := questionType.pointer }
  else qs

/-- Inner loop body over `addresses[service.target]` in
`cache.getQuestionsForExpiringRecords`. -/
def expiringAddressStep (qs : List question) (address : addressRecord) : List question :=
  if address.rr.isCloseToExpiring then addQuestion qs address.getQuestion else qs

/-- Loop body of the service-record pass of
`cache.getQuestionsForExpiringRecords`. -/
def expiringServiceStep (c : cache) (browseSet : List serviceName)
    (qs : List question) (entry : serviceInstanceName × serviceRecord) : List question :=
  let record := entry.2
  if browseSet.contains record.serviceName && record.rr.isCloseToExpiring then
    let qs := addQuestion qs { name := record.instanceName, questionType := questionType.service }
    (addressRecordsForHost c.addressRecords record.target).foldl expiringAddressStep qs
  else qs

/-- Loop body of the text-record pass of
`cache.getQuestionsForExpiringRecords`. -/
def expiringTextStep (browseSet : List serviceName)
    (qs : List question) (entry : serviceInstanceName × textRecord) : List question :=
  let text := entry.2
  if browseSet.contains text.serviceName && text.rr.isCloseToExpiring then
    addQuestion qs { name := text.instanceName, questionType := questionType.text }
  else qs

/-- `cache.getQuestionsForExpiringRecords`: refresh questions for cached
records that are close to expiring and relevant to the browse set. -/
def cache.getQuestionsForExpiringRecords (c : cache) (browseSet : List serviceName)
    (questions : List question) : List question :=
  let afterPointers := c.pointerRecords.foldl (expiringPointerStep browseSet) questions
  let afterServices := c.serviceRecords.foldl (expiringServiceStep c browseSet) afterPointers
  c.textRecords.foldl (expiringTextStep browseSet) afterServices

/-- Loop body over `pointers` in `cache.getQuestionsForMissingRecords`:
the SRV / address / TXT checks for one cached pointer record. -/
def missingRecordStep (c : cache) (qs : List question) (pointer : pointerRecord) :
    List question :=
  let afterService :=
    match lookupKey c.serviceRecords pointer.instanceName with
    | none =>
        addQuestion qs { name := pointer.instanceName, questionType := questionType.service }
    | some record =>
        if (addressRecordsForHost c.addressRecords record.target).isEmpty then
          addQuestion
            (addQuestion qs { name := record.target, questionType := questionType.ipv4Address })
            { name := record.target, questionType := questionType.ipv6Address }
        else qs
  match lookupKey c.textRecords pointer.instanceName with
  | none =>
      addQuestion afterService { name := pointer.instanceName, questionType := questionType.text }
  | some _ => afterService

/-- Loop body over the browse set in `cache.getQuestionsForMissingRecords`:
a service with no cached pointer records is skipped (pointer questions are
asked only on initial subscription, RFC 6762 section 8.3). -/
def missingRecordsForService (c : cache) (qs : List question) (s : serviceName) :
    List question :=
  let pointers := pointerRecordsForService c.pointerRecords s
  if pointers.isEmpty then qs
  else pointers.foldl (missingRecordStep c) qs

/-- `cache.getQuestionsForMissingRecords`: questions for the records missing
from the cache but needed to resolve the browsed services. -/
def cache.getQuestionsForMissingRecords (c : cache) (browseSet : List serviceName)
    (questions : List question) : List question :=
  browseSet.foldl (missingRecordsForService c) questions

/-- `dns.RR_Header` as consumed by this package: record name, class (carrying
the cache-flush bit) and TTL in seconds (a uint32 on the wire). -/
structure RR_Header where
  Name : String
  Class : Nat
  Ttl : Nat
deriving DecidableEq, Repr

/-- `cacheFlushIsSet`: bit 15 of the class field (RFC 6762 section 10.2). -/
def cacheFlushIsSet (header : RR_Header) : Bool :=
  decide (header.Class &&& (1 <<< 15) ≠ 0)

/-- `headerToResourceRecord`: `time.Duration(header.Ttl) * time.Second`, with
both TTL fields initialized to that duration. -/
def headerToResourceRecord (header : RR_Header) : resourceRecord :=
  let timeToLive : Duration := (header.Ttl : Int) * 1000000000
  { cacheFlush := cacheFlushIsSet header,
    initialTimeToLive := timeToLive,
    remainingTimeToLive := timeToLive }

/-- `dns.SRV` as consumed here. -/
structure SRV where
  Hdr : RR_Header
  Target : String
  Port : Nat
deriving DecidableEq, Repr

/-- `dns.TXT` as consumed here. -/
structure TXT where
  Hdr : RR_Header
  Txt : List String
deriving DecidableEq, Repr

/-- `strings.SplitN(s, sep, 2)` for a single-character separator, over the
character list of `s`. -/
def splitN2Chars (sep : Char) : List Char → List (List Char)
  | [] => [[]]
  | c :: rest =>
      if c = sep then [[], rest]
      else
        match splitN2Chars sep rest with
        | [] => [[c]]
        | first :: others => (c :: first) :: others

/-- `strings.Split(s, sep)` for a single-character separator, over the
character list of `s`. -/
def splitChars (sep : Char) : List Char → List (List Char)
  | [] => [[]]
  | c :: rest =>
      match splitChars sep rest with
      | [] => [[c]]
      | first :: others =>
          if c = sep then [] :: first :: others else (c :: first) :: others

/-- `serviceNameFromInstanceName`: element 1 of
`strings.SplitN(instanceName, ".", 2)`.  The Go code indexes that element
unconditionally and panics when the split has a single element (no dot in the
name), so the embedding returns `Option`. -/
def serviceNameFromInstanceName (instanceName : serviceInstanceName) : Option serviceName :=
  match splitN2Chars '.' instanceName.data with
  | _ :: second :: _ => some (String.mk second)
  | _ => none

/-- `srvToServiceRecord`: conversion of an SRV record; `none` exactly when
`serviceNameFromInstanceName` panics in the Go original. -/
def srvToServiceRecord (srv : SRV) : Option serviceRecord :=
  let instanceName : serviceInstanceName := srv.Hdr.Name
  (serviceNameFromInstanceName instanceName).map (fun s =>
    { instanceName := instanceName, port := srv.Port, serviceName := s,
      target := srv.Target, rr := headerToResourceRecord srv.Hdr })

/-- Loop body of `txtToMap`: split one raw string on "=", record it only when
the split has length exactly 2 (Go map assignment), else drop it. -/
def txtToMapStep (values : List (String × String)) (value : String) :
    List (String × String) :=
  match splitChars '=' value.data with
  | [k, v] => insertKey values (String.mk k) (String.mk v)
  | _ => values

/-- `txtToMap`: fold each raw TXT string through `strings.Split(value, "=")`;
only splits of length exactly 2 are recorded, later bindings overwriting
earlier ones with the same key (Go map assignment). -/
def txtToMap (txt : List String) : List (String × String) :=
  txt.foldl txtToMapStep []

/-- `txtToTextRecord`: conversion of a TXT record; `none` exactly when
`serviceNameFromInstanceName` panics in the Go original. -/
def txtToTextRecord (txt : TXT) : Option textRecord :=
  let instanceName : serviceInstanceName := txt.Hdr.Name
  (serviceNameFromInstanceName instanceName).map (fun s =>
    { instanceName := instanceName, serviceName := s,
      values := txtToMap txt.Txt, rr := headerToResourceRecord txt.Hdr })

/-- The resolver state touched by `Resolver.onServiceAdded`: the browse set
(`r.browseSet`, a set of service names embedded as a list). -/
structure ResolverBrowseState where
  browseSet : List serviceName
deriving DecidableEq, Repr

/-- `Resolver.onServiceAdded`: handle a browse request.  `sendFails` tells
whether `netClient.sendQuestion` returns an error for the emitted pointer
question; the Go code only logs such an error, after the browse set was
already extended.  Returns the new state and the questions handed to
`netClient.sendQuestion`. -/
def Resolver.onServiceAdded (sendFails : Bool) (r : ResolverBrowseState)
    (name : serviceName) : ResolverBrowseState × List question :=
  if r.browseSet.contains name then
    (r, [])
  else
    let r2 : ResolverBrowseState := { browseSet := name :: r.browseSet }
    let q : question := { name := name, questionType := questionType.pointer }
    -- err := r.netClient.sendQuestion(question): a non-nil err is only logged,
    -- the state is unaffected by sendFails.
    (r2, [q])

section MapLemmas

variable {K V : Type} [DecidableEq K]

theorem lookupKey_insertKey_self (l : List (K × V)) (k : K) (v : V) :
    lookupKey (insertKey l k v) k = some v := by
  induction l with
  | nil => simp [insertKey, lookupKey]
  | cons head tail ih =>
      obtain ⟨k0, v0⟩ := head
      by_cases h : k0 = k
      · simp [insertKey, lookupKey, h]
      · simp [insertKey, lookupKey, h, ih]

theorem lookupKey_insertKey_ne (l : List (K × V)) (k : K) (v : V) {k' : K}
    (h : k' ≠ k) : lookupKey (insertKey l k v) k' = lookupKey l k' := by
  have hne : k ≠ k' := Ne.symm h
  induction l with
  | nil => simp [insertKey, lookupKey, hne]
  | cons head tail ih =>
      obtain ⟨k0, v0⟩ := head
      by_cases h0 : k0 = k
      · subst h0
        simp [insertKey, lookupKey, hne]
      · simp only [insertKey, if_neg h0, lookupKey]
        by_cases h1 : k0 = k'
        · simp [h1]
        · simp [h1, ih]

theorem mem_insertKey {l : List (K × V)} {k : K} {v : V} {e : K × V}
    (h : e ∈ insertKey l k v) : e = (k, v) ∨ e ∈ l := by
  induction l with
  | nil => simpa [insertKey] using h
  | cons head tail ih =>
      obtain ⟨k0, v0⟩ := head
      by_cases h0 : k0 = k
      · simp only [insertKey, if_pos h0] at h
        rcases List.mem_cons.mp h with h1 | h1
        · exact Or.inl h1
        · exact Or.inr (List.mem_cons_of_mem _ h1)
      · simp only [insertKey, if_neg h0] at h
        rcases List.mem_cons.mp h with h1 | h1
        · exact Or.inr (h1 ▸ List.mem_cons_self _ _)
        · rcases ih h1 with h2 | h2
          · exact Or.inl h2
          · exact Or.inr (List.mem_cons_of_mem _ h2)

end MapLemmas

theorem mem_addQuestion {qs : List question} {q q' : question} :
    q' ∈ addQuestion qs q ↔ q' = q ∨ q' ∈ qs := by
  unfold addQuestion
  by_cases h : qs.contains q
  · rw [if_pos h]
    have hq : q ∈ qs := by simpa using h
    constructor
    · exact Or.inr
    · rintro (rfl | h2)
      · exact hq
      · exact h2
  · rw [if_neg h]
    simp [List.mem_cons]

/-- Case analysis of the merge performed by `cache.onAddressRecordReceived`. -/
theorem onAddressRecordReceived_cases (c : cache) (r : addressRecord) :
    (lookupKey c.addressRecords r.getID = none →
      (c.onAddressRecordReceived r).2 = true ∧
      lookupKey (c.onAddressRecordReceived r).1.addressRecords r.getID = some r) ∧
    (∀ e, lookupKey c.addressRecords r.getID = some e → r.rr.cacheFlush = true →
      (c.onAddressRecordReceived r).2 = true ∧
      lookupKey (c.onAddressRecordReceived r).1.addressRecords r.getID = some r) ∧
    (∀ e, lookupKey c.addressRecords r.getID = some e → r.rr.cacheFlush = false →
      e.rr.remainingTimeToLive < r.rr.remainingTimeToLive →
      (c.onAddressRecordReceived r).2 = true ∧
      lookupKey (c.onAddressRecordReceived r).1.addressRecords r.getID = some r) ∧
    (∀ e, lookupKey c.addressRecords r.getID = some e → r.rr.cacheFlush = false →
      r.rr.remainingTimeToLive ≤ e.rr.remainingTimeToLive →
      c.onAddressRecordReceived r = (c, false)) ∧
    (∀ k, k ≠ r.getID →
      lookupKey (c.onAddressRecordReceived r).1.addressRecords k =
        lookupKey c.addressRecords k) ∧
    ((c.onAddressRecordReceived r).1.pointerRecords = c.pointerRecords ∧
     (c.onAddressRecordReceived r).1.serviceRecords = c.serviceRecords ∧
     (c.onAddressRecordReceived r).1.textRecords = c.textRecords) := by
  constructor
  · intro h
    simp [cache.onAddressRecordReceived, h, lookupKey_insertKey_self]
  constructor
  · intro e he hf
    simp [cache.onAddressRecordReceived, he, hf, lookupKey_insertKey_self]
  constructor
  · intro e he hf ht
    simp [cache.onAddressRecordReceived, he, hf, ht, lookupKey_insertKey_self]
  constructor
  · intro e he hf ht
    have hnot : ¬ (r.rr.remainingTimeToLive > e.rr.remainingTimeToLive) := not_lt.mpr ht
    simp [cache.onAddressRecordReceived, he, hf, hnot]
  constructor
  · intro k hk
    cases hlk : lookupKey c.addressRecords r.getID with
    | none => simp [cache.onAddressRecordReceived, hlk, lookupKey_insertKey_ne _ _ _ hk]
    | some e0 =>
        cases hc : (r.rr.cacheFlush
            || decide (r.rr.remainingTimeToLive > e0.rr.remainingTimeToLive)) with
        | true =>
            simp [cache.onAddressRecordReceived, hlk, hc, lookupKey_insertKey_ne _ _ _ hk]
        | false => simp [cache.onAddressRecordReceived, hlk, hc]
  refine ⟨?_, ?_, ?_⟩ <;>
    (cases hlk : lookupKey c.addressRecords r.getID with
     | none => simp [cache.onAddressRecordReceived, hlk]
     | some e0 =>
        cases hc : (r.rr.cacheFlush
            || decide (r.rr.remainingTimeToLive > e0.rr.remainingTimeToLive)) with
        | true => simp [cache.onAddressRecordReceived, hlk, hc]
        | false => simp [cache.onAddressRecordReceived, hlk, hc])

/-- Case analysis of the merge performed by `cache.onPointerRecordReceived`. -/
theorem onPointerRecordReceived_cases (c : cache) (r : pointerRecord) :
    (lookupKey c.pointerRecords r.instanceName = none →
      (c.onPointerRecordReceived r).2 = true ∧
      lookupKey (c.onPointerRecordReceived r).1.pointerRecords r.instanceName = some r) ∧
    (∀ e, lookupKey c.pointerRecords r.instanceName = some e → r.rr.cacheFlush = true →
      (c.onPointerRecordReceived r).2 = true ∧
      lookupKey (c.onPointerRecordReceived r).1.pointerRecords r.instanceName = some r) ∧
    (∀ e, lookupKey c.pointerRecords r.instanceName = some e → r.rr.cacheFlush = false →
      e.rr.remainingTimeToLive < r.rr.remainingTimeToLive →
      (c.onPointerRecordReceived r).2 = true ∧
      lookupKey (c.onPointerRecordReceived r).1.pointerRecords r.instanceName = some r) ∧
    (∀ e, lookupKey c.pointerRecords r.instanceName = some e → r.rr.cacheFlush = false →
      r.rr.remainingTimeToLive ≤ e.rr.remainingTimeToLive →
      c.onPointerRecordReceived r = (c, false)) ∧
    (∀ k, k ≠ r.instanceName →
      lookupKey (c.onPointerRecordReceived r).1.pointerRecords k =
        lookupKey c.pointerRecords k) ∧
    ((c.onPointerRecordReceived r).1.addressRecords = c.addressRecords ∧
     (c.onPointerRecordReceived r).1.serviceRecords = c.serviceRecords ∧
     (c.onPointerRecordReceived r).1.textRecords = c.textRecords) := by
  constructor
  · intro h
    simp [cache.onPointerRecordReceived, h, lookupKey_insertKey_self]
  constructor
  · intro e he hf
    simp [cache.onPointerRecordReceived, he, hf, lookupKey_insertKey_self]
  constructor
  · intro e he hf ht
    simp [cache.onPointerRecordReceived, he, hf, ht, lookupKey_insertKey_self]
  constructor
  · intro e he hf ht
    have hnot : ¬ (r.rr.remainingTimeToLive > e.rr.remainingTimeToLive) := not_lt.mpr ht
    simp [cache.onPointerRecordReceived, he, hf, hnot]
  constructor
  · intro k hk
    cases hlk : lookupKey c.pointerRecords r.instanceName with
    | none => simp [cache.onPointerRecordReceived, hlk, lookupKey_insertKey_ne _ _ _ hk]
    | some e0 =>
        cases hc : (r.rr.cacheFlush
            || decide (r.rr.remainingTimeToLive > e0.rr.remainingTimeToLive)) with
        | true =>
            simp [cache.onPointerRecordReceived, hlk, hc, lookupKey_insertKey_ne _ _ _ hk]
        | false => simp [cache.onPointerRecordReceived, hlk, hc]
  refine ⟨?_, ?_, ?_⟩ <;>
    (cases hlk : lookupKey c.pointerRecords r.instanceName with
     | none => simp [cache.onPointerRecordReceived, hlk]
     | some e0 =>
        cases hc : (r.rr.cacheFlush
            || decide (r.rr.remainingTimeToLive > e0.rr.remainingTimeToLive)) with
        | true => simp [cache.onPointerRecordReceived, hlk, hc]
        | false => simp [cache.onPointerRecordReceived, hlk, hc])

/-- Case analysis of the merge performed by `cache.onServiceRecordReceived`. -/
theorem onServiceRecordReceived_cases (c : cache) (r : serviceRecord) :
    (lookupKey c.serviceRecords r.instanceName = none →
      (c.onServiceRecordReceived r).2 = true ∧
      lookupKey (c.onServiceRecordReceived r).1.serviceRecords r.instanceName = some r) ∧
    (∀ e, lookupKey c.serviceRecords r.instanceName = some e → r.rr.cacheFlush = true →
      (c.onServiceRecordReceived r).2 = true ∧
      lookupKey (c.onServiceRecordReceived r).1.serviceRecords r.instanceName = some r) ∧
    (∀ e, lookupKey c.serviceRecords r.instanceName = some e → r.rr.cacheFlush = false →
      e.rr.remainingTimeToLive < r.rr.remainingTimeToLive →
      (c.onServiceRecordReceived r).2 = true ∧
      lookupKey (c.onServiceRecordReceived r).1.serviceRecords r.instanceName = some r) ∧
    (∀ e, lookupKey c.serviceRecords r.instanceName = some e → r.rr.cacheFlush = false →
      r.rr.remainingTimeToLive ≤ e.rr.remainingTimeToLive →
      c.onServiceRecordReceived r = (c, false)) ∧
    (∀ k, k ≠ r.instanceName →
      lookupKey (c.onServiceRecordReceived r).1.serviceRecords k =
        lookupKey c.serviceRecords k) ∧
    ((c.onServiceRecordReceived r).1.addressRecords = c.addressRecords ∧
     (c.onServiceRecordReceived r).1.pointerRecords = c.pointerRecords ∧
     (c.onServiceRecordReceived r).1.textRecords = c.textRecords) := by
  constructor
  · intro h
    simp [cache.onServiceRecordReceived, h, lookupKey_insertKey_self]
  constructor
  · intro e he hf
    simp [cache.onServiceRecordReceived, he, hf, lookupKey_insertKey_self]
  constructor
  · intro e he hf ht
    simp [cache.onServiceRecordReceived, he, hf, ht, lookupKey_insertKey_self]
  constructor
  · intro e he hf ht
    have hnot : ¬ (r.rr.remainingTimeToLive > e.rr.remainingTimeToLive) := not_lt.mpr ht
    simp [cache.onServiceRecordReceived, he, hf, hnot]
  constructor
  · intro k hk
    cases hlk : lookupKey c.serviceRecords r.instanceName with
    | none => simp [cache.onServiceRecordReceived, hlk, lookupKey_insertKey_ne _ _ _ hk]
    | some e0 =>
        cases hc : (r.rr.cacheFlush
            || decide (r.rr.remainingTimeToLive > e0.rr.remainingTimeToLive)) with
        | true =>
            simp [cache.onServiceRecordReceived, hlk, hc, lookupKey_insertKey_ne _ _ _ hk]
        | false => simp [cache.onServiceRecordReceived, hlk, hc]
  refine ⟨?_, ?_, ?_⟩ <;>
    (cases hlk : lookupKey c.serviceRecords r.instanceName with
     | none => simp [cache.onServiceRecordReceived, hlk]
     | some e0 =>
        cases hc : (r.rr.cacheFlush
            || decide (r.rr.remainingTimeToLive > e0.rr.remainingTimeToLive)) with
        | true => simp [cache.onServiceRecordReceived, hlk, hc]
        | false => simp [cache.onServiceRecordReceived, hlk, hc])

/-- Case analysis of the merge performed by `cache.onTextRecordReceived`. -/
theorem onTextRecordReceived_cases (c : cache) (r : textRecord) :
    (lookupKey c.textRecords r.instanceName = none →
      (c.onTextRecordReceived r).2 = true ∧
      lookupKey (c.onTextRecordReceived r).1.textRecords r.instanceName = some r) ∧
    (∀ e, lookupKey c.textRecords r.instanceName = some e → r.rr.cacheFlush = true →
      (c.onTextRecordReceived r).2 = true ∧
      lookupKey (c.onTextRecordReceived r).1.textRecords r.instanceName = some r) ∧
    (∀ e, lookupKey c.textRecords r.instanceName = some e → r.rr.cacheFlush = false →
      e.rr.remainingTimeToLive < r.rr.remainingTimeToLive →
      (c.onTextRecordReceived r).2 = true ∧
      lookupKey (c.onTextRecordReceived r).1.textRecords r.instanceName = some r) ∧
    (∀ e, lookupKey c.textRecords r.instanceName = some e → r.rr.cacheFlush = false →
      r.rr.remainingTimeToLive ≤ e.rr.remainingTimeToLive →
      c.onTextRecordReceived r = (c, false)) ∧
    (∀ k, k ≠ r.instanceName →
      lookupKey (c.onTextRecordReceived r).1.textRecords k =
        lookupKey c.textRecords k) ∧
    ((c.onTextRecordReceived r).1.addressRecords = c.addressRecords ∧
     (c.onTextRecordReceived r).1.pointerRecords = c.pointerRecords ∧
     (c.onTextRecordReceived r).1.serviceRecords = c.serviceRecords) := by
  constructor
  · intro h
    simp [cache.onTextRecordReceived, h, lookupKey_insertKey_self]
  constructor
  · intro e he hf
    simp [cache.onTextRecordReceived, he, hf, lookupKey_insertKey_self]
  constructor
  · intro e he hf ht
    simp [cache.onTextRecordReceived, he, hf, ht, lookupKey_insertKey_self]
  constructor
  · intro e he hf ht
    have hnot : ¬ (r.rr.remainingTimeToLive > e.rr.remainingTimeToLive) := not_lt.mpr ht
    simp [cache.onTextRecordReceived, he, hf, hnot]
  constructor
  · intro k hk
    cases hlk : lookupKey c.textRecords r.instanceName with
    | none => simp [cache.onTextRecordReceived, hlk, lookupKey_insertKey_ne _ _ _ hk]
    | some e0 =>
        cases hc : (r.rr.cacheFlush
            || decide (r.rr.remainingTimeToLive > e0.rr.remainingTimeToLive)) with
        | true =>
            simp [cache.onTextRecordReceived, hlk, hc, lookupKey_insertKey_ne _ _ _ hk]
        | false => simp [cache.onTextRecordReceived, hlk, hc]
  refine ⟨?_, ?_, ?_⟩ <;>
    (cases hlk : lookupKey c.textRecords r.instanceName with
     | none => simp [cache.onTextRecordReceived, hlk]
     | some e0 =>
        cases hc : (r.rr.cacheFlush
            || decide (r.rr.remainingTimeToLive > e0.rr.remainingTimeToLive)) with
        | true => simp [cache.onTextRecordReceived, hlk, hc]
        | false => simp [cache.onTextRecordReceived, hlk, hc])

/-- C2: for each of the four record families, `on_received(R)` with identity K
behaves exactly as: if K is absent from the container, R is stored and true is
returned; otherwise, if R's cache-flush bit is set, R replaces the existing
record (regardless of either TTL) and true is returned; otherwise, if R's
remaining TTL is strictly greater than the existing record's, R replaces it
and true is returned; otherwise the container is left unchanged and false is
returned. -/
theorem claim_merge_policy :
    (∀ (c : cache) (r : addressRecord),
      (lookupKey c.addressRecords r.getID = none →
        (c.onAddressRecordReceived r).2 = true ∧
        lookupKey (c.onAddressRecordReceived r).1.addressRecords r.getID = some r) ∧
      (∀ e, lookupKey c.addressRecords r.getID = some e → r.rr.cacheFlush = true →
        (c.onAddressRecordReceived r).2 = true ∧
        lookupKey (c.onAddressRecordReceived r).1.addressRecords r.getID = some r) ∧
      (∀ e, lookupKey c.addressRecords r.getID = some e → r.rr.cacheFlush = false →
        e.rr.remainingTimeToLive < r.rr.remainingTimeToLive →
        (c.onAddressRecordReceived r).2 = true ∧
        lookupKey (c.onAddressRecordReceived r).1.addressRecords r.getID = some r) ∧
      (∀ e, lookupKey c.addressRecords r.getID = some e → r.rr.cacheFlush = false →
        r.rr.remainingTimeToLive ≤ e.rr.remainingTimeToLive →
        c.onAddressRecordReceived r = (c, false)) ∧
      (∀ k, k ≠ r.getID →
        lookupKey (c.onAddressRecordReceived r).1.addressRecords k =
          lookupKey c.addressRecords k) ∧
      ((c.onAddressRecordReceived r).1.pointerRecords = c.pointerRecords ∧
       (c.onAddressRecordReceived r).1.serviceRecords = c.serviceRecords ∧
       (c.onAddressRecordReceived r).1.textRecords = c.textRecords)) ∧
    (∀ (c : cache) (r : pointerRecord),
      (lookupKey c.pointerRecords r.instanceName = none →
        (c.onPointerRecordReceived r).2 = true ∧
        lookupKey (c.onPointerRecordReceived r).1.pointerRecords r.instanceName = some r) ∧
      (∀ e, lookupKey c.pointerRecords r.instanceName = some e → r.rr.cacheFlush = true →
        (c.onPointerRecordReceived r).2 = true ∧
        lookupKey (c.onPointerRecordReceived r).1.pointerRecords r.instanceName = some r) ∧
      (∀ e, lookupKey c.pointerRecords r.instanceName = some e → r.rr.cacheFlush = false →
        e.rr.remainingTimeToLive < r.rr.remainingTimeToLive →
        (c.onPointerRecordReceived r).2 = true ∧
        lookupKey (c.onPointerRecordReceived r).1.pointerRecords r.instanceName = some r) ∧
      (∀ e, lookupKey c.pointerRecords r.instanceName = some e → r.rr.cacheFlush = false →
        r.rr.remainingTimeToLive ≤ e.rr.remainingTimeToLive →
        c.onPointerRecordReceived r = (c, false)) ∧
      (∀ k, k ≠ r.instanceName →
        lookupKey (c.onPointerRecordReceived r).1.pointerRecords k =
          lookupKey c.pointerRecords k) ∧
      ((c.onPointerRecordReceived r).1.addressRecords = c.addressRecords ∧
       (c.onPointerRecordReceived r).1.serviceRecords = c.serviceRecords ∧
       (c.onPointerRecordReceived r).1.textRecords = c.textRecords)) ∧
    (∀ (c : cache) (r : serviceRecord),
      (lookupKey c.serviceRecords r.instanceName = none →
        (c.onServiceRecordReceived r).2 = true ∧
        lookupKey (c.onServiceRecordReceived r).1.serviceRecords r.instanceName = some r) ∧
      (∀ e, lookupKey c.serviceRecords r.instanceName = some e → r.rr.cacheFlush = true →
        (c.onServiceRecordReceived r).2 = true ∧
        lookupKey (c.onServiceRecordReceived r).1.serviceRecords r.instanceName = some r) ∧
      (∀ e, lookupKey c.serviceRecords r.instanceName = some e → r.rr.cacheFlush = false →
        e.rr.remainingTimeToLive < r.rr.remainingTimeToLive →
        (c.onServiceRecordReceived r).2 = true ∧
        lookupKey (c.onServiceRecordReceived r).1.serviceRecords r.instanceName = some r) ∧
      (∀ e, lookupKey c.serviceRecords r.instanceName = some e → r.rr.cacheFlush = false →
        r.rr.remainingTimeToLive ≤ e.rr.remainingTimeToLive →
        c.onServiceRecordReceived r = (c, false)) ∧
      (∀ k, k ≠ r.instanceName →
        lookupKey (c.onServiceRecordReceived r).1.serviceRecords k =
          lookupKey c.serviceRecords k) ∧
      ((c.onServiceRecordReceived r).1.addressRecords = c.addressRecords ∧
       (c.onServiceRecordReceived r).1.pointerRecords = c.pointerRecords ∧
       (c.onServiceRecordReceived r).1.textRecords = c.textRecords)) ∧
    (∀ (c : cache) (r : textRecord),
      (lookupKey c.textRecords r.instanceName = none →
        (c.onTextRecordReceived r).2 = true ∧
        lookupKey (c.onTextRecordReceived r).1.textRecords r.instanceName = some r) ∧
      (∀ e, lookupKey c.textRecords r.instanceName = some e → r.rr.cacheFlush = true →
        (c.onTextRecordReceived r).2 = true ∧
        lookupKey (c.onTextRecordReceived r).1.textRecords r.instanceName = some r) ∧
      (∀ e, lookupKey c.textRecords r.instanceName = some e → r.rr.cacheFlush = false →
        e.rr.remainingTimeToLive < r.rr.remainingTimeToLive →
        (c.onTextRecordReceived r).2 = true ∧
        lookupKey (c.onTextRecordReceived r).1.textRecords r.instanceName = some r) ∧
      (∀ e, lookupKey c.textRecords r.instanceName = some e → r.rr.cacheFlush = false →
        r.rr.remainingTimeToLive ≤ e.rr.remainingTimeToLive →
        c.onTextRecordReceived r = (c, false)) ∧
      (∀ k, k ≠ r.instanceName →
        lookupKey (c.onTextRecordReceived r).1.textRecords k =
          lookupKey c.textRecords k) ∧
      ((c.onTextRecordReceived r).1.addressRecords = c.addressRecords ∧
       (c.onTextRecordReceived r).1.pointerRecords = c.pointerRecords ∧
       (c.onTextRecordReceived r).1.serviceRecords = c.serviceRecords)) :=
  ⟨onAddressRecordReceived_cases, onPointerRecordReceived_cases,
   onServiceRecordReceived_cases, onTextRecordReceived_cases⟩

/-- A sample address record (host `host.local.`, 120s remaining). -/
def sampleAddressRecord : addressRecord :=
  { address := { str := "10.1.2.3", isV4 := true }, name := "host.local.",
    rr := { cacheFlush := false, initialTimeToLive := 120, remainingTimeToLive := 120 } }

/-- The same identity as `sampleAddressRecord` with the cache-flush bit set
and a lower TTL. -/
def sampleFlushRecord : addressRecord :=
  { address := { str := "10.1.2.3", isV4 := true }, name := "host.local.",
    rr := { cacheFlush := true, initialTimeToLive := 60, remainingTimeToLive := 60 } }

/-- The same identity as `sampleAddressRecord`, no cache-flush, lower TTL. -/
def sampleLowTTLRecord : addressRecord :=
  { address := { str := "10.1.2.3", isV4 := true }, name := "host.local.",
    rr := { cacheFlush := false, initialTimeToLive := 60, remainingTimeToLive := 60 } }

/-- A one-entry address container holding `sampleAddressRecord`. -/
def sampleAddressCache : cache :=
  { addressRecords := [(sampleAddressRecord.getID, sampleAddressRecord)],
    pointerRecords := [], serviceRecords := [], textRecords := [] }

theorem claim_merge_policy_witness :
    ((newCache.onAddressRecordReceived sampleAddressRecord).2 = true ∧
      lookupKey (newCache.onAddressRecordReceived sampleAddressRecord).1.addressRecords
        sampleAddressRecord.getID = some sampleAddressRecord) ∧
    ((sampleAddressCache.onAddressRecordReceived sampleFlushRecord).2 = true ∧
      lookupKey (sampleAddressCache.onAddressRecordReceived sampleFlushRecord).1.addressRecords
        sampleFlushRecord.getID = some sampleFlushRecord) ∧
    sampleAddressCache.onAddressRecordReceived sampleLowTTLRecord =
      (sampleAddressCache, false) :=
  ⟨(claim_merge_policy.1 newCache sampleAddressRecord).1 (by decide),
   (claim_merge_policy.1 sampleAddressCache sampleFlushRecord).2.1
     sampleAddressRecord (by decide) (by decide),
   (claim_merge_policy.1 sampleAddressCache sampleLowTTLRecord).2.2.2.1
     sampleAddressRecord (by decide) (by decide) (by decide)⟩

theorem elapseRecords_mem {K V : Type} (tick : V → V) (alive : V → Bool) :
    ∀ (l : List (K × V)) (k : K) (v' : V),
    (k, v') ∈ (elapseRecords tick alive l).1 ↔
      ∃ v, (k, v) ∈ l ∧ v' = tick v ∧ alive (tick v) = true := by
  intro l
  induction l with
  | nil => intro k v'; simp [elapseRecords]
  | cons head rest ih =>
      obtain ⟨k0, v0⟩ := head
      intro k v'
      cases halive : alive (tick v0) with
      | true =>
          simp only [elapseRecords, halive, if_pos, List.mem_cons, ih, Prod.mk.injEq]
          constructor
          · rintro (⟨rfl, rfl⟩ | ⟨v, hv, rfl, ha⟩)
            · exact ⟨v0, Or.inl ⟨rfl, rfl⟩, rfl, halive⟩
            · exact ⟨v, Or.inr hv, rfl, ha⟩
          · rintro ⟨v, (⟨rfl, rfl⟩ | hv), rfl, ha⟩
            · exact Or.inl ⟨rfl, rfl⟩
            · exact Or.inr ⟨v, hv, rfl, ha⟩
      | false =>
          simp only [elapseRecords, halive, List.mem_cons, ih, Prod.mk.injEq,
            Bool.false_eq_true, if_false]
          constructor
          · rintro ⟨v, hv, rfl, ha⟩
            exact ⟨v, Or.inr hv, rfl, ha⟩
          · rintro ⟨v, (⟨rfl, rfl⟩ | hv), rfl, ha⟩
            · rw [halive] at ha; cases ha
            · exact ⟨v, hv, rfl, ha⟩

theorem elapseRecords_flag {K V : Type} (tick : V → V) (alive : V → Bool) :
    ∀ (l : List (K × V)),
    (elapseRecords tick alive l).2 = true ↔ ∃ e ∈ l, alive (tick e.2) = false := by
  intro l
  induction l with
  | nil => simp [elapseRecords]
  | cons head rest ih =>
      obtain ⟨k0, v0⟩ := head
      cases halive : alive (tick v0) with
      | true =>
          simp only [elapseRecords, halive, if_pos, List.mem_cons, ih]
          constructor
          · rintro ⟨e, he, ha⟩
            exact ⟨e, Or.inr he, ha⟩
          · rintro ⟨e, (rfl | he), ha⟩
            · rw [halive] at ha; cases ha
            · exact ⟨e, he, ha⟩
      | false =>
          simp only [elapseRecords, halive, Bool.false_eq_true, if_false, List.mem_cons]
          constructor
          · intro _
            exact ⟨(k0, v0), Or.inl rfl, halive⟩
          · intro _
            trivial

/-- C3: `on_time_elapsed(d)` (d ≥ 0) decrements the remaining TTL of every
record in all four containers by d, removes exactly those records whose
decremented remaining TTL is ≤ 0, and returns true iff at least one record
was removed; every surviving record has remaining TTL > 0. -/
theorem claim_time_elapsed (c : cache) (d : Duration) (hd : 0 ≤ d) :
    (∀ r : resourceRecord, (r.elapse d).remainingTimeToLive = r.remainingTimeToLive - d ∧
      (r.elapse d).initialTimeToLive = r.initialTimeToLive) ∧
    (∀ k v', (k, v') ∈ (c.onTimeElapsed d).1.addressRecords ↔
      ∃ v, (k, v) ∈ c.addressRecords ∧ v' = { v with rr := v.rr.elapse d } ∧
        0 < v.rr.remainingTimeToLive - d) ∧
    (∀ k v', (k, v') ∈ (c.onTimeElapsed d).1.pointerRecords ↔
      ∃ v, (k, v) ∈ c.pointerRecords ∧ v' = { v with rr := v.rr.elapse d } ∧
        0 < v.rr.remainingTimeToLive - d) ∧
    (∀ k v', (k, v') ∈ (c.onTimeElapsed d).1.serviceRecords ↔
      ∃ v, (k, v) ∈ c.serviceRecords ∧ v' = { v with rr := v.rr.elapse d } ∧
        0 < v.rr.remainingTimeToLive - d) ∧
    (∀ k v', (k, v') ∈ (c.onTimeElapsed d).1.textRecords ↔
      ∃ v, (k, v) ∈ c.textRecords ∧ v' = { v with rr := v.rr.elapse d } ∧
        0 < v.rr.remainingTimeToLive - d) ∧
    ((c.onTimeElapsed d).2 = true ↔
      (∃ e ∈ c.addressRecords, e.2.rr.remainingTimeToLive - d ≤ 0) ∨
      (∃ e ∈ c.pointerRecords, e.2.rr.remainingTimeToLive - d ≤ 0) ∨
      (∃ e ∈ c.serviceRecords, e.2.rr.remainingTimeToLive - d ≤ 0) ∨
      (∃ e ∈ c.textRecords, e.2.rr.remainingTimeToLive - d ≤ 0)) ∧
    ((∀ e ∈ (c.onTimeElapsed d).1.addressRecords, 0 < e.2.rr.remainingTimeToLive) ∧
     (∀ e ∈ (c.onTimeElapsed d).1.pointerRecords, 0 < e.2.rr.remainingTimeToLive) ∧
     (∀ e ∈ (c.onTimeElapsed d).1.serviceRecords, 0 < e.2.rr.remainingTimeToLive) ∧
     (∀ e ∈ (c.onTimeElapsed d).1.textRecords, 0 < e.2.rr.remainingTimeToLive)) := by
  refine ⟨fun r => ⟨rfl, rfl⟩, ?_, ?_, ?_, ?_, ?_, ?_, ?_, ?_, ?_⟩
  · intro k v'
    simp only [cache.onTimeElapsed, elapseRecords_mem, resourceRecord.elapse,
      decide_eq_true_eq]
  · intro k v'
    simp only [cache.onTimeElapsed, elapseRecords_mem, resourceRecord.elapse,
      decide_eq_true_eq]
  · intro k v'
    simp only [cache.onTimeElapsed, elapseRecords_mem, resourceRecord.elapse,
      decide_eq_true_eq]
  · intro k v'
    simp only [cache.onTimeElapsed, elapseRecords_mem, resourceRecord.elapse,
      decide_eq_true_eq]
  · simp only [cache.onTimeElapsed, Bool.or_eq_true, elapseRecords_flag,
      resourceRecord.elapse, decide_eq_false_iff_not, not_lt]
    simp only [or_assoc]
  all_goals
    (rintro ⟨k, v'⟩ h
     obtain ⟨v, -, rfl, ha⟩ := (elapseRecords_mem _ _ _ _ _).mp h
     simpa [resourceRecord.elapse] using ha)

/-- A pointer record with 800 (ns) remaining. -/
def samplePointerRecord1 : pointerRecord :=
  { instanceName := "I1._s.local.", serviceName := "_s.local.",
    rr := { cacheFlush := false, initialTimeToLive := 800, remainingTimeToLive := 800 } }

/-- A pointer record with 300 (ns) remaining. -/
def samplePointerRecord2 : pointerRecord :=
  { instanceName := "I2._s.local.", serviceName := "_s.local.",
    rr := { cacheFlush := false, initialTimeToLive := 300, remainingTimeToLive := 300 } }

/-- A cache holding the two sample pointer records. -/
def sampleElapseCache : cache :=
  { addressRecords := [],
    pointerRecords := [("I1._s.local.", samplePointerRecord1),
                       ("I2._s.local.", samplePointerRecord2)],
    serviceRecords := [], textRecords := [] }

theorem claim_time_elapsed_witness :
    (("I1._s.local.",
        { samplePointerRecord1 with rr := samplePointerRecord1.rr.elapse 300 }) ∈
          (sampleElapseCache.onTimeElapsed 300).1.pointerRecords ↔
      ∃ v, ("I1._s.local.", v) ∈ sampleElapseCache.pointerRecords ∧
        { samplePointerRecord1 with rr := samplePointerRecord1.rr.elapse 300 } =
          { v with rr := v.rr.elapse 300 } ∧
        0 < v.rr.remainingTimeToLive - 300) :=
  (claim_time_elapsed sampleElapseCache 300 (by decide)).2.2.1
    "I1._s.local." { samplePointerRecord1 with rr := samplePointerRecord1.rr.elapse 300 }

theorem mem_toResolvedInstances (c : cache) (key : serviceInstanceID)
    (inst : ServiceInstance) :
    (key, inst) ∈ c.toResolvedInstances ↔
      ∃ i p, (i, p) ∈ c.pointerRecords ∧
        ∃ srv, lookupKey c.serviceRecords i = some srv ∧
          ∃ txt, lookupKey c.textRecords i = some txt ∧
            ∃ a, a ∈ addressRecordsForHost c.addressRecords srv.target ∧
              inst = { Address := a.address, InstanceName := i, Port := srv.port,
                       ServiceName := srv.serviceName, TextRecords := txt.values } ∧
              key = { address := a.address.str, name := i } := by
  unfold cache.toResolvedInstances
  rw [List.mem_flatMap]
  constructor
  · rintro ⟨⟨i, p⟩, hentry, hmem⟩
    dsimp only at hmem
    cases hsrv : lookupKey c.serviceRecords i with
    | none => rw [hsrv] at hmem; simp at hmem
    | some srv =>
        cases htxt : lookupKey c.textRecords i with
        | none => rw [hsrv, htxt] at hmem; simp at hmem
        | some txt =>
            rw [hsrv, htxt] at hmem
            simp only [List.mem_map, Prod.mk.injEq] at hmem
            obtain ⟨a, ha, hkey, hinst⟩ := hmem
            exact ⟨i, p, hentry, srv, hsrv, txt, htxt, a, ha, hinst.symm,
              by rw [← hkey]; rfl⟩
  · rintro ⟨i, p, hp, srv, hsrv, txt, htxt, a, ha, rfl, rfl⟩
    refine ⟨(i, p), hp, ?_⟩
    dsimp only
    rw [hsrv, htxt]
    simp only [List.mem_map, Prod.mk.injEq]
    exact ⟨a, ha, rfl, rfl⟩

/-- C1: for every cache state, `resolved_instances()` contains an entry keyed
by (A.address string, I) iff the pointer container holds instance name I, the
service container holds SRV[I], the text container holds TXT[I], and A is a
cached address record whose host name equals SRV[I].target; each emitted
instance carries SRV[I].port, TXT[I].values, and a service name taken from
SRV[I].service_name (never from the PTR record's own service-name field). -/
theorem claim_resolved_instances (c : cache) :
    (∀ (a : String) (i : serviceInstanceName),
      (∃ inst, (({ address := a, name := i } : serviceInstanceID), inst) ∈
          c.toResolvedInstances) ↔
        ((∃ p, (i, p) ∈ c.pointerRecords) ∧
         ∃ srv, lookupKey c.serviceRecords i = some srv ∧
           (∃ txt, lookupKey c.textRecords i = some txt) ∧
           ∃ ar, ar ∈ c.addressRecords.map Prod.snd ∧ ar.name = srv.target ∧
             ar.address.str = a)) ∧
    (∀ (key : serviceInstanceID) (inst : ServiceInstance),
      (key, inst) ∈ c.toResolvedInstances →
        ∃ srv txt, lookupKey c.serviceRecords key.name = some srv ∧
          lookupKey c.textRecords key.name = some txt ∧
          inst.Port = srv.port ∧ inst.TextRecords = txt.values ∧
          inst.ServiceName = srv.serviceName ∧ inst.InstanceName = key.name ∧
          inst.Address.str = key.address) := by
  constructor
  · intro a i
    constructor
    · rintro ⟨inst, hmem⟩
      rw [mem_toResolvedInstances] at hmem
      obtain ⟨i', p, hp, srv, hsrv, txt, htxt, ar, har, hinst, hkey⟩ := hmem
      injection hkey with h1 h2
      subst h2
      obtain ⟨hmap, hbeq⟩ := List.mem_filter.mp har
      exact ⟨⟨p, hp⟩, srv, hsrv, ⟨txt, htxt⟩, ar, hmap, by simpa using hbeq, h1.symm⟩
    · rintro ⟨⟨p, hp⟩, srv, hsrv, ⟨txt, htxt⟩, ar, hmap, hname, hstr⟩
      refine ⟨{ Address := ar.address, InstanceName := i, Port := srv.port,
                ServiceName := srv.serviceName, TextRecords := txt.values }, ?_⟩
      rw [mem_toResolvedInstances]
      exact ⟨i, p, hp, srv, hsrv, txt, htxt, ar,
        List.mem_filter.mpr ⟨hmap, by simpa using hname⟩, rfl, by rw [hstr]⟩
  · intro key inst hmem
    rw [mem_toResolvedInstances] at hmem
    obtain ⟨i, p, hp, srv, hsrv, txt, htxt, ar, har, rfl, rfl⟩ := hmem
    exact ⟨srv, txt, hsrv, htxt, rfl, rfl, rfl, rfl, rfl⟩

/-- A resource header with 120 (ns) remaining out of 120. -/
def sampleHeader120 : resourceRecord :=
  { cacheFlush := false, initialTimeToLive := 120, remainingTimeToLive := 120 }

/-- Address record for the full-join sample. -/
def resolveAddress : addressRecord :=
  { address := { str := "10.0.0.9", isV4 := true }, name := "host.local.",
    rr := sampleHeader120 }

/-- Pointer record for the full-join sample (its own service-name field is
deliberately different from the SRV record's). -/
def resolvePointer : pointerRecord :=
  { instanceName := "inst._s.local.", serviceName := "_ptrname.local.",
    rr := sampleHeader120 }

/-- Service record for the full-join sample. -/
def resolveService : serviceRecord :=
  { instanceName := "inst._s.local.", port := 80, serviceName := "_s.local.",
    target := "host.local.", rr := sampleHeader120 }

/-- Text record for the full-join sample. -/
def resolveText : textRecord :=
  { instanceName := "inst._s.local.", serviceName := "_s.local.",
    values := [("hello", "world")], rr := sampleHeader120 }

/-- A cache holding a complete PTR / SRV / TXT / address join. -/
def sampleResolveCache : cache :=
  { addressRecords := [(resolveAddress.getID, resolveAddress)],
    pointerRecords := [("inst._s.local.", resolvePointer)],
    serviceRecords := [("inst._s.local.", resolveService)],
    textRecords := [("inst._s.local.", resolveText)] }

/-- The instance the sample cache resolves to. -/
def resolvedSample : ServiceInstance :=
  { Address := { str := "10.0.0.9", isV4 := true }, InstanceName := "inst._s.local.",
    Port := 80, ServiceName := "_s.local.", TextRecords := [("hello", "world")] }

theorem claim_resolved_instances_witness :
    ∃ srv txt,
      lookupKey sampleResolveCache.serviceRecords
        ({ address := "10.0.0.9", name := "inst._s.local." } : serviceInstanceID).name =
          some srv ∧
      lookupKey sampleResolveCache.textRecords
        ({ address := "10.0.0.9", name := "inst._s.local." } : serviceInstanceID).name =
          some txt ∧
      resolvedSample.Port = srv.port ∧ resolvedSample.TextRecords = txt.values ∧
      resolvedSample.ServiceName = srv.serviceName ∧
      resolvedSample.InstanceName =
        ({ address := "10.0.0.9", name := "inst._s.local." } : serviceInstanceID).name ∧
      resolvedSample.Address.str =
        ({ address := "10.0.0.9", name := "inst._s.local." } : serviceInstanceID).address :=
  (claim_resolved_instances sampleResolveCache).2
    { address := "10.0.0.9", name := "inst._s.local." } resolvedSample (by decide)

theorem mem_foldl_questions {α : Type} {f : List question → α → List question}
    {G : α → question → Prop}
    (hf : ∀ qs a q, q ∈ f qs a ↔ G a q ∨ q ∈ qs) :
    ∀ (l : List α) (qs : List question) (q : question),
      q ∈ l.foldl f qs ↔ (∃ a ∈ l, G a q) ∨ q ∈ qs := by
  intro l
  induction l with
  | nil => intro qs q; simp
  | cons a rest ih =>
      intro qs q
      rw [List.foldl_cons, ih, hf]
      constructor
      · rintro (⟨b, hb, hG⟩ | hG | hq)
        · exact Or.inl ⟨b, List.mem_cons_of_mem _ hb, hG⟩
        · exact Or.inl ⟨a, List.mem_cons_self _ _, hG⟩
        · exact Or.inr hq
      · rintro (⟨b, hb, hG⟩ | hq)
        · rcases List.mem_cons.mp hb with rfl | hb2
          · exact Or.inr (Or.inl hG)
          · exact Or.inl ⟨b, hb2, hG⟩
        · exact Or.inr (Or.inr hq)

theorem mem_expiringPointerStep (browseSet : List serviceName) (qs : List question)
    (entry : serviceInstanceName × pointerRecord) (q : question) :
    q ∈ expiringPointerStep browseSet qs entry ↔
      (browseSet.contains entry.2.serviceName = true ∧
        entry.2.rr.isCloseToExpiring = true ∧
        q = { name := entry.2.instanceName, questionType := questionType.pointer }) ∨
      q ∈ qs := by
  unfold expiringPointerStep
  cases hcond : (browseSet.contains entry.2.serviceName && entry.2.rr.isCloseToExpiring) with
  | true =>
      have h12 := hcond
      rw [Bool.and_eq_true] at h12
      obtain ⟨h1, h2⟩ := h12
      have h1m : entry.2.serviceName ∈ browseSet := by simpa using h1
      simp [hcond, mem_addQuestion, h1, h2, h1m]
  | false =>
      simp only [hcond, Bool.false_eq_true, if_false]
      constructor
      · exact Or.inr
      · rintro (⟨h1, h2, rfl⟩ | h)
        · rw [h1, h2] at hcond; cases hcond
        · exact h

theorem mem_expiringTextStep (browseSet : List serviceName) (qs : List question)
    (entry : serviceInstanceName × textRecord) (q : question) :
    q ∈ expiringTextStep browseSet qs entry ↔
      (browseSet.contains entry.2.serviceName = true ∧
        entry.2.rr.isCloseToExpiring = true ∧
        q = { name := entry.2.instanceName, questionType := questionType.text }) ∨
      q ∈ qs := by
  unfold expiringTextStep
  cases hcond : (browseSet.contains entry.2.serviceName && entry.2.rr.isCloseToExpiring) with
  | true =>
      have h12 := hcond
      rw [Bool.and_eq_true] at h12
      obtain ⟨h1, h2⟩ := h12
      have h1m : entry.2.serviceName ∈ browseSet := by simpa using h1
      simp [hcond, mem_addQuestion, h1, h2, h1m]
  | false =>
      simp only [hcond, Bool.false_eq_true, if_false]
      constructor
      · exact Or.inr
      · rintro (⟨h1, h2, rfl⟩ | h)
        · rw [h1, h2] at hcond; cases hcond
        · exact h

theorem mem_expiringAddressStep (qs : List question) (a : addressRecord) (q : question) :
    q ∈ expiringAddressStep qs a ↔
      (a.rr.isCloseToExpiring = true ∧ q = a.getQuestion) ∨ q ∈ qs := by
  unfold expiringAddressStep
  cases hcond : a.rr.isCloseToExpiring with
  | true => simp [hcond, mem_addQuestion]
  | false =>
      simp only [hcond, Bool.false_eq_true, if_false]
      constructor
      · exact Or.inr
      · rintro (⟨h1, rfl⟩ | h)
        · cases h1
        · exact h

theorem mem_expiringServiceStep (c : cache) (browseSet : List serviceName)
    (qs : List question) (entry : serviceInstanceName × serviceRecord) (q : question) :
    q ∈ expiringServiceStep c browseSet qs entry ↔
      (browseSet.contains entry.2.serviceName = true ∧
        entry.2.rr.isCloseToExpiring = true ∧
        (q = { name := entry.2.instanceName, questionType := questionType.service } ∨
         ∃ a ∈ addressRecordsForHost c.addressRecords entry.2.target,
           a.rr.isCloseToExpiring = true ∧ q = a.getQuestion)) ∨
      q ∈ qs := by
  cases hcond : (browseSet.contains entry.2.serviceName && entry.2.rr.isCloseToExpiring) with
  | true =>
      have h12 := hcond
      rw [Bool.and_eq_true] at h12
      obtain ⟨h1, h2⟩ := h12
      have hstep : expiringServiceStep c browseSet qs entry =
          (addressRecordsForHost c.addressRecords entry.2.target).foldl
            expiringAddressStep
            (addQuestion qs { name := entry.2.instanceName,
                              questionType := questionType.service }) := by
        simp only [expiringServiceStep, hcond, if_true]
      rw [hstep, mem_foldl_questions mem_expiringAddressStep, mem_addQuestion]
      simp only [h1, h2, true_and]
      constructor
      · rintro (⟨a, ha, hae, hqe⟩ | hq | hq)
        · exact Or.inl (Or.inr ⟨a, ha, hae, hqe⟩)
        · exact Or.inl (Or.inl hq)
        · exact Or.inr hq
      · rintro ((hq | ⟨a, ha, hae, hqe⟩) | hq)
        · exact Or.inr (Or.inl hq)
        · exact Or.inl ⟨a, ha, hae, hqe⟩
        · exact Or.inr (Or.inr hq)
  | false =>
      have hstep : expiringServiceStep c browseSet qs entry = qs := by
        simp only [expiringServiceStep, hcond, Bool.false_eq_true, if_false]
      rw [hstep]
      constructor
      · exact Or.inr
      · rintro (⟨hq1, hq2, _⟩ | h)
        · rw [hq1, hq2] at hcond; cases hcond
        · exact h

theorem mem_missingRecordStep (c : cache) (qs : List question)
    (pointer : pointerRecord) (q : question) :
    q ∈ missingRecordStep c qs pointer ↔
      ((lookupKey c.serviceRecords pointer.instanceName = none ∧
          q = { name := pointer.instanceName, questionType := questionType.service }) ∨
       (∃ srv, lookupKey c.serviceRecords pointer.instanceName = some srv ∧
          (addressRecordsForHost c.addressRecords srv.target).isEmpty = true ∧
          (q = { name := srv.target, questionType := questionType.ipv4Address } ∨
           q = { name := srv.target, questionType := questionType.ipv6Address })) ∨
       (lookupKey c.textRecords pointer.instanceName = none ∧
          q = { name := pointer.instanceName, questionType := questionType.text })) ∨
      q ∈ qs := by
  cases hsrv : lookupKey c.serviceRecords pointer.instanceName with
  | none =>
      cases htxt : lookupKey c.textRecords pointer.instanceName with
      | none =>
          simp only [missingRecordStep, hsrv, htxt, mem_addQuestion]
          simp [hsrv, htxt]
          tauto
      | some t0 =>
          simp only [missingRecordStep, hsrv, htxt, mem_addQuestion]
          simp [hsrv, htxt]
  | some srv0 =>
      cases hemp : (addressRecordsForHost c.addressRecords srv0.target).isEmpty with
      | true =>
          have hempeq : addressRecordsForHost c.addressRecords srv0.target = [] := by
            simpa using hemp
          cases htxt : lookupKey c.textRecords pointer.instanceName with
          | none =>
              simp only [missingRecordStep, hsrv, htxt, hemp, if_true, mem_addQuestion]
              simp [hsrv, htxt, hempeq]
              tauto
          | some t0 =>
              simp only [missingRecordStep, hsrv, htxt, hemp, if_true, mem_addQuestion]
              simp [hsrv, htxt, hempeq]
              tauto
      | false =>
          have hempne : ¬ addressRecordsForHost c.addressRecords srv0.target = [] := by
            simpa using hemp
          cases htxt : lookupKey c.textRecords pointer.instanceName with
          | none =>
              simp only [missingRecordStep, hsrv, htxt, hemp, Bool.false_eq_true,
                if_false, mem_addQuestion]
              simp [hsrv, htxt, hempne]
          | some t0 =>
              simp only [missingRecordStep, hsrv, htxt, hemp, Bool.false_eq_true,
                if_false, mem_addQuestion]
              simp [hsrv, htxt, hempne]

theorem mem_missingRecordsForService (c : cache) (qs : List question)
    (s : serviceName) (q : question) :
    q ∈ missingRecordsForService c qs s ↔
      (∃ p ∈ pointerRecordsForService c.pointerRecords s,
        ((lookupKey c.serviceRecords p.instanceName = none ∧
            q = { name := p.instanceName, questionType := questionType.service }) ∨
         (∃ srv, lookupKey c.serviceRecords p.instanceName = some srv ∧
            (addressRecordsForHost c.addressRecords srv.target).isEmpty = true ∧
            (q = { name := srv.target, questionType := questionType.ipv4Address } ∨
             q = { name := srv.target, questionType := questionType.ipv6Address })) ∨
         (lookupKey c.textRecords p.instanceName = none ∧
            q = { name := p.instanceName, questionType := questionType.text }))) ∨
      q ∈ qs := by
  cases hemp : (pointerRecordsForService c.pointerRecords s).isEmpty with
  | true =>
      have hempeq : pointerRecordsForService c.pointerRecords s = [] := by
        simpa using hemp
      have hstep : missingRecordsForService c qs s = qs := by
        simp only [missingRecordsForService, hemp, if_true]
      rw [hstep, hempeq]
      simp
  | false =>
      have hstep : missingRecordsForService c qs s =
          (pointerRecordsForService c.pointerRecords s).foldl (missingRecordStep c) qs := by
        simp only [missingRecordsForService, hemp, Bool.false_eq_true, if_false]
      rw [hstep, mem_foldl_questions (mem_missingRecordStep c)]

/-- C4: `questions_for_missing` adds no question for a browsed service with no
cached PTR record; for every cached PTR[I] advertising a browsed service it
adds an SRV question for I when SRV[I] is absent, adds both an A and an AAAA
question for SRV[I].target when SRV[I] is present but no address record for
that target exists, and adds a TXT question for I when TXT[I] is absent; no
other questions are added. -/
theorem claim_missing_questions (c : cache) (browseSet : List serviceName)
    (init : List question) (q : question) :
    q ∈ c.getQuestionsForMissingRecords browseSet init ↔
      (∃ s ∈ browseSet, ∃ p ∈ pointerRecordsForService c.pointerRecords s,
        ((lookupKey c.serviceRecords p.instanceName = none ∧
            q = { name := p.instanceName, questionType := questionType.service }) ∨
         (∃ srv, lookupKey c.serviceRecords p.instanceName = some srv ∧
            (addressRecordsForHost c.addressRecords srv.target).isEmpty = true ∧
            (q = { name := srv.target, questionType := questionType.ipv4Address } ∨
             q = { name := srv.target, questionType := questionType.ipv6Address })) ∨
         (lookupKey c.textRecords p.instanceName = none ∧
            q = { name := p.instanceName, questionType := questionType.text }))) ∨
      q ∈ init := by
  have hdef : c.getQuestionsForMissingRecords browseSet init =
      browseSet.foldl (missingRecordsForService c) init := rfl
  rw [hdef, mem_foldl_questions (mem_missingRecordsForService c)]

/-- C5: `questions_for_expiring` adds a question of the record's own type and
name for each pointer, service, and text record whose service name is in the
browse set and which is close to expiring — a record is close to expiring
exactly when the elapsed fraction (initial − remaining) / initial of its TTL
exceeds 0.8 — and, for each such close-to-expiring SRV record, additionally
adds an address question (A or AAAA according to the address's IP version)
for every close-to-expiring address record of that SRV's target; no other
questions are added. -/
theorem claim_expiring_questions (c : cache) (browseSet : List serviceName) :
    (∀ r : resourceRecord, 0 < r.initialTimeToLive →
      (r.isCloseToExpiring = true ↔
        (0.8 : ℚ) < (((r.initialTimeToLive : ℚ) - (r.remainingTimeToLive : ℚ)) /
          (r.initialTimeToLive : ℚ)))) ∧
    (∀ a : addressRecord, a.getQuestion =
      { name := a.name,
        questionType :=
          if a.isIPv4 = true then questionType.ipv4Address else questionType.ipv6Address }) ∧
    (∀ (init : List question) (q : question),
      q ∈ c.getQuestionsForExpiringRecords browseSet init ↔
        (∃ e ∈ c.textRecords, browseSet.contains e.2.serviceName = true ∧
          e.2.rr.isCloseToExpiring = true ∧
          q = { name := e.2.instanceName, questionType := questionType.text }) ∨
        (∃ e ∈ c.serviceRecords, browseSet.contains e.2.serviceName = true ∧
          e.2.rr.isCloseToExpiring = true ∧
          (q = { name := e.2.instanceName, questionType := questionType.service } ∨
           ∃ a ∈ addressRecordsForHost c.addressRecords e.2.target,
             a.rr.isCloseToExpiring = true ∧ q = a.getQuestion)) ∨
        (∃ e ∈ c.pointerRecords, browseSet.contains e.2.serviceName = true ∧
          e.2.rr.isCloseToExpiring = true ∧
          q = { name := e.2.instanceName, questionType := questionType.pointer }) ∨
        q ∈ init) := by
  refine ⟨?_, ?_, ?_⟩
  · intro r hpos
    have hposQ : (0:ℚ) < (r.initialTimeToLive : ℚ) := by exact_mod_cast hpos
    simp only [resourceRecord.isCloseToExpiring, decide_eq_true_eq]
    rw [show (0.8:ℚ) = 4/5 by norm_num, div_lt_div_iff (by norm_num) hposQ]
    constructor
    · intro h
      exact_mod_cast (show (4:ℤ) * r.initialTimeToLive <
        (r.initialTimeToLive - r.remainingTimeToLive) * 5 by linarith)
    · intro h
      have h2 : (4:ℤ) * r.initialTimeToLive <
          (r.initialTimeToLive - r.remainingTimeToLive) * 5 := by exact_mod_cast h
      linarith
  · intro a
    rfl
  · intro init q
    have hdef : c.getQuestionsForExpiringRecords browseSet init =
        c.textRecords.foldl (expiringTextStep browseSet)
          (c.serviceRecords.foldl (expiringServiceStep c browseSet)
            (c.pointerRecords.foldl (expiringPointerStep browseSet) init)) := rfl
    rw [hdef, mem_foldl_questions (mem_expiringTextStep browseSet),
        mem_foldl_questions (mem_expiringServiceStep c browseSet),
        mem_foldl_questions (mem_expiringPointerStep browseSet)]

/-- A resource record with 90% of its initial TTL elapsed. -/
def sampleExpiringHeader : resourceRecord :=
  { cacheFlush := false, initialTimeToLive := 100, remainingTimeToLive := 10 }

theorem claim_expiring_questions_witness :
    sampleExpiringHeader.isCloseToExpiring = true ↔
      (0.8 : ℚ) < (((sampleExpiringHeader.initialTimeToLive : ℚ) -
        (sampleExpiringHeader.remainingTimeToLive : ℚ)) /
        (sampleExpiringHeader.initialTimeToLive : ℚ)) :=
  (claim_expiring_questions newCache []).1 sampleExpiringHeader (by decide)

/-- C7: a browse request for a name already in the browse set leaves the
resolver state unchanged and sends no question; otherwise the name is added
and exactly one PTR question for that service is emitted; a send failure is
only logged — the state, including the freshly added name, is the same
whether or not the send fails (no rollback). -/
theorem claim_browse_request (sendFails : Bool) (r : ResolverBrowseState)
    (name : serviceName) :
    (r.browseSet.contains name = true →
      Resolver.onServiceAdded sendFails r name = (r, [])) ∧
    (r.browseSet.contains name = false →
      (∀ x, x ∈ (Resolver.onServiceAdded sendFails r name).1.browseSet ↔
        x = name ∨ x ∈ r.browseSet) ∧
      (Resolver.onServiceAdded sendFails r name).2 =
        [{ name := name, questionType := questionType.pointer }]) ∧
    (Resolver.onServiceAdded sendFails r name = Resolver.onServiceAdded false r name) ∧
    name ∈ (Resolver.onServiceAdded sendFails r name).1.browseSet := by
  refine ⟨?_, ?_, rfl, ?_⟩
  · intro h
    have hm : name ∈ r.browseSet := by simpa using h
    simp [Resolver.onServiceAdded, hm]
  · intro h
    have hm : name ∉ r.browseSet := by simpa using h
    constructor
    · intro x
      simp [Resolver.onServiceAdded, hm]
    · simp [Resolver.onServiceAdded, hm]
  · cases h : r.browseSet.contains name with
    | true =>
        have hm : name ∈ r.browseSet := by simpa using h
        simpa [Resolver.onServiceAdded, hm] using hm
    | false =>
        have hm : name ∉ r.browseSet := by simpa using h
        simp [Resolver.onServiceAdded, hm]

theorem claim_browse_request_witness :
    (Resolver.onServiceAdded true { browseSet := [] } "_x._tcp.local.").2 =
      [{ name := "_x._tcp.local.", questionType := questionType.pointer }] :=
  ((claim_browse_request true { browseSet := [] } "_x._tcp.local.").2.1 (by decide)).2

/-- The TTL invariant of claim C8: every record stored in any of the four
containers has `remaining_ttl ≤ initial_ttl`. -/
def cache.ttlInvariant (c : cache) : Prop :=
  (∀ e ∈ c.addressRecords, e.2.rr.remainingTimeToLive ≤ e.2.rr.initialTimeToLive) ∧
  (∀ e ∈ c.pointerRecords, e.2.rr.remainingTimeToLive ≤ e.2.rr.initialTimeToLive) ∧
  (∀ e ∈ c.serviceRecords, e.2.rr.remainingTimeToLive ≤ e.2.rr.initialTimeToLive) ∧
  (∀ e ∈ c.textRecords, e.2.rr.remainingTimeToLive ≤ e.2.rr.initialTimeToLive)

theorem forall_mem_insertKey {K V : Type} [DecidableEq K] (P : V → Prop)
    {l : List (K × V)} {k : K} {v : V}
    (hl : ∀ e ∈ l, P e.2) (hv : P v) : ∀ e ∈ insertKey l k v, P e.2 := by
  intro e he
  rcases mem_insertKey he with rfl | h
  · exact hv
  · exact hl e h

/-- C8: `remaining_ttl ≤ initial_ttl` holds everywhere: the wire constructor
initializes the header with the two TTL fields equal, and every cache
operation (each family's on_received with an invariant-satisfying record, and
on_time_elapsed with duration ≥ 0) preserves the inequality for every stored
record. -/
theorem claim_ttl_monotone :
    (∀ h : RR_Header, (headerToResourceRecord h).remainingTimeToLive =
      (headerToResourceRecord h).initialTimeToLive) ∧
    (∀ (c : cache) (r : addressRecord), c.ttlInvariant →
      r.rr.remainingTimeToLive ≤ r.rr.initialTimeToLive →
      (c.onAddressRecordReceived r).1.ttlInvariant) ∧
    (∀ (c : cache) (r : pointerRecord), c.ttlInvariant →
      r.rr.remainingTimeToLive ≤ r.rr.initialTimeToLive →
      (c.onPointerRecordReceived r).1.ttlInvariant) ∧
    (∀ (c : cache) (r : serviceRecord), c.ttlInvariant →
      r.rr.remainingTimeToLive ≤ r.rr.initialTimeToLive →
      (c.onServiceRecordReceived r).1.ttlInvariant) ∧
    (∀ (c : cache) (r : textRecord), c.ttlInvariant →
      r.rr.remainingTimeToLive ≤ r.rr.initialTimeToLive →
      (c.onTextRecordReceived r).1.ttlInvariant) ∧
    (∀ (c : cache) (d : Duration), 0 ≤ d → c.ttlInvariant →
      (c.onTimeElapsed d).1.ttlInvariant) := by
  refine ⟨fun h => rfl, ?_, ?_, ?_, ?_, ?_⟩
  · intro c r hc hr
    cases hlk : lookupKey c.addressRecords r.getID with
    | none =>
        have hres : (c.onAddressRecordReceived r).1 =
            { c with addressRecords := insertKey c.addressRecords r.getID r } := by
          simp [cache.onAddressRecordReceived, hlk]
        rw [hres]
        exact ⟨forall_mem_insertKey (fun v : addressRecord => v.rr.remainingTimeToLive ≤ v.rr.initialTimeToLive) hc.1 hr, hc.2.1, hc.2.2.1, hc.2.2.2⟩
    | some e0 =>
        cases hcond : (r.rr.cacheFlush
            || decide (r.rr.remainingTimeToLive > e0.rr.remainingTimeToLive)) with
        | true =>
            have hres : (c.onAddressRecordReceived r).1 =
                { c with addressRecords := insertKey c.addressRecords r.getID r } := by
              simp [cache.onAddressRecordReceived, hlk, hcond]
            rw [hres]
            exact ⟨forall_mem_insertKey (fun v : addressRecord => v.rr.remainingTimeToLive ≤ v.rr.initialTimeToLive) hc.1 hr, hc.2.1, hc.2.2.1, hc.2.2.2⟩
        | false =>
            have hres : (c.onAddressRecordReceived r).1 = c := by
              simp [cache.onAddressRecordReceived, hlk, hcond]
            rw [hres]
            exact hc
  · intro c r hc hr
    cases hlk : lookupKey c.pointerRecords r.instanceName with
    | none =>
        have hres : (c.onPointerRecordReceived r).1 =
            { c with pointerRecords := insertKey c.pointerRecords r.instanceName r } := by
          simp [cache.onPointerRecordReceived, hlk]
        rw [hres]
        exact ⟨hc.1, forall_mem_insertKey (fun v : pointerRecord => v.rr.remainingTimeToLive ≤ v.rr.initialTimeToLive) hc.2.1 hr, hc.2.2.1, hc.2.2.2⟩
    | some e0 =>
        cases hcond : (r.rr.cacheFlush
            || decide (r.rr.remainingTimeToLive > e0.rr.remainingTimeToLive)) with
        | true =>
            have hres : (c.onPointerRecordReceived r).1 =
                { c with pointerRecords := insertKey c.pointerRecords r.instanceName r } := by
              simp [cache.onPointerRecordReceived, hlk, hcond]
            rw [hres]
            exact ⟨hc.1, forall_mem_insertKey (fun v : pointerRecord => v.rr.remainingTimeToLive ≤ v.rr.initialTimeToLive) hc.2.1 hr, hc.2.2.1, hc.2.2.2⟩
        | false =>
            have hres : (c.onPointerRecordReceived r).1 = c := by
              simp [cache.onPointerRecordReceived, hlk, hcond]
            rw [hres]
            exact hc
  · intro c r hc hr
    cases hlk : lookupKey c.serviceRecords r.instanceName with
    | none =>
        have hres : (c.onServiceRecordReceived r).1 =
            { c with serviceRecords := insertKey c.serviceRecords r.instanceName r } := by
          simp [cache.onServiceRecordReceived, hlk]
        rw [hres]
        exact ⟨hc.1, hc.2.1, forall_mem_insertKey (fun v : serviceRecord => v.rr.remainingTimeToLive ≤ v.rr.initialTimeToLive) hc.2.2.1 hr, hc.2.2.2⟩
    | some e0 =>
        cases hcond : (r.rr.cacheFlush
            || decide (r.rr.remainingTimeToLive > e0.rr.remainingTimeToLive)) with
        | true =>
            have hres : (c.onServiceRecordReceived r).1 =
                { c with serviceRecords := insertKey c.serviceRecords r.instanceName r } := by
              simp [cache.onServiceRecordReceived, hlk, hcond]
            rw [hres]
            exact ⟨hc.1, hc.2.1, forall_mem_insertKey (fun v : serviceRecord => v.rr.remainingTimeToLive ≤ v.rr.initialTimeToLive) hc.2.2.1 hr, hc.2.2.2⟩
        | false =>
            have hres : (c.onServiceRecordReceived r).1 = c := by
              simp [cache.onServiceRecordReceived, hlk, hcond]
            rw [hres]
            exact hc
  · intro c r hc hr
    cases hlk : lookupKey c.textRecords r.instanceName with
    | none =>
        have hres : (c.onTextRecordReceived r).1 =
            { c with textRecords := insertKey c.textRecords r.instanceName r } := by
          simp [cache.onTextRecordReceived, hlk]
        rw [hres]
        exact ⟨hc.1, hc.2.1, hc.2.2.1, forall_mem_insertKey (fun v : textRecord => v.rr.remainingTimeToLive ≤ v.rr.initialTimeToLive) hc.2.2.2 hr⟩
    | some e0 =>
        cases hcond : (r.rr.cacheFlush
            || decide (r.rr.remainingTimeToLive > e0.rr.remainingTimeToLive)) with
        | true =>
            have hres : (c.onTextRecordReceived r).1 =
                { c with textRecords := insertKey c.textRecords r.instanceName r } := by
              simp [cache.onTextRecordReceived, hlk, hcond]
            rw [hres]
            exact ⟨hc.1, hc.2.1, hc.2.2.1, forall_mem_insertKey (fun v : textRecord => v.rr.remainingTimeToLive ≤ v.rr.initialTimeToLive) hc.2.2.2 hr⟩
        | false =>
            have hres : (c.onTextRecordReceived r).1 = c := by
              simp [cache.onTextRecordReceived, hlk, hcond]
            rw [hres]
            exact hc
  · intro c d hd hc
    refine ⟨?_, ?_, ?_, ?_⟩
    · rintro ⟨k, v'⟩ he
      obtain ⟨v, hv, rfl, -⟩ := (elapseRecords_mem _ _ _ _ _).mp he
      have h1 := hc.1 (k, v) hv
      simp [resourceRecord.elapse] at h1 ⊢
      linarith
    · rintro ⟨k, v'⟩ he
      obtain ⟨v, hv, rfl, -⟩ := (elapseRecords_mem _ _ _ _ _).mp he
      have h1 := hc.2.1 (k, v) hv
      simp [resourceRecord.elapse] at h1 ⊢
      linarith
    · rintro ⟨k, v'⟩ he
      obtain ⟨v, hv, rfl, -⟩ := (elapseRecords_mem _ _ _ _ _).mp he
      have h1 := hc.2.2.1 (k, v) hv
      simp [resourceRecord.elapse] at h1 ⊢
      linarith
    · rintro ⟨k, v'⟩ he
      obtain ⟨v, hv, rfl, -⟩ := (elapseRecords_mem _ _ _ _ _).mp he
      have h1 := hc.2.2.2 (k, v) hv
      simp [resourceRecord.elapse] at h1 ⊢
      linarith

theorem claim_ttl_monotone_witness :
    (sampleResolveCache.onTimeElapsed 30).1.ttlInvariant :=
  claim_ttl_monotone.2.2.2.2.2 sampleResolveCache 30 (by decide)
    ⟨by decide, by decide, by decide, by decide⟩

theorem splitN2Chars_of_not_mem (sep : Char) :
    ∀ l : List Char, sep ∉ l → splitN2Chars sep l = [l] := by
  intro l
  induction l with
  | nil => intro _; rfl
  | cons c rest ih =>
      intro h
      have h1 : ¬ c = sep := fun hc => h (hc ▸ List.mem_cons_self _ _)
      have h2 : sep ∉ rest := fun hm => h (List.mem_cons_of_mem _ hm)
      simp [splitN2Chars, h1, ih h2]

theorem splitN2Chars_first_sep (sep : Char) :
    ∀ (pre post : List Char), sep ∉ pre →
    splitN2Chars sep (pre ++ sep :: post) = [pre, post] := by
  intro pre
  induction pre with
  | nil => intro post _; simp [splitN2Chars]
  | cons c pre' ih =>
      intro post h
      have h1 : ¬ c = sep := fun hc => h (hc ▸ List.mem_cons_self _ _)
      have h2 : sep ∉ pre' := fun hm => h (List.mem_cons_of_mem _ hm)
      simp [splitN2Chars, h1, ih post h2]

theorem exists_first_sep (sep : Char) :
    ∀ l : List Char, sep ∈ l → ∃ pre post, l = pre ++ sep :: post ∧ sep ∉ pre := by
  intro l
  induction l with
  | nil => intro h; cases h
  | cons c rest ih =>
      intro h
      by_cases hc : c = sep
      · subst hc
        exact ⟨[], rest, rfl, List.not_mem_nil _⟩
      · have hm : sep ∈ rest := by
          rcases List.mem_cons.mp h with h1 | h1
          · exact absurd h1.symm hc
          · exact h1
        obtain ⟨pre, post, heq, hpre⟩ := ih hm
        refine ⟨c :: pre, post, by rw [heq]; rfl, ?_⟩
        intro hmem
        rcases List.mem_cons.mp hmem with h1 | h1
        · exact hc h1.symm
        · exact hpre h1

theorem serviceNameFromInstanceName_eq_none (s : serviceInstanceName) :
    serviceNameFromInstanceName s = none ↔ '.' ∉ s.data := by
  constructor
  · intro h hdot
    obtain ⟨pre, post, heq, hpre⟩ := exists_first_sep '.' s.data hdot
    unfold serviceNameFromInstanceName at h
    rw [heq, splitN2Chars_first_sep _ _ _ hpre] at h
    cases h
  · intro h
    unfold serviceNameFromInstanceName
    rw [splitN2Chars_of_not_mem _ _ h]

/-- C9: `serviceNameFromInstanceName`, applied by the SRV and TXT wire
constructors to the record's name, returns the substring after the first dot
for every instance name containing at least one dot; for a name with no dot
its index access [1] on the split result is out of bounds (the panic branch is
reachable, modelled as `none`), so SRV and TXT record construction is total
exactly when the wire name contains at least one dot. -/
theorem claim_service_name_derivation :
    (∀ s : serviceInstanceName, '.' ∈ s.data →
      ∃ pre post, s.data = pre ++ '.' :: post ∧ '.' ∉ pre ∧
        serviceNameFromInstanceName s = some (String.mk post)) ∧
    (∀ s : serviceInstanceName, '.' ∉ s.data → serviceNameFromInstanceName s = none) ∧
    (∀ srv : SRV, srvToServiceRecord srv = none ↔ '.' ∉ srv.Hdr.Name.data) ∧
    (∀ txt : TXT, txtToTextRecord txt = none ↔ '.' ∉ txt.Hdr.Name.data) := by
  refine ⟨?_, ?_, ?_, ?_⟩
  · intro s hdot
    obtain ⟨pre, post, heq, hpre⟩ := exists_first_sep '.' s.data hdot
    refine ⟨pre, post, heq, hpre, ?_⟩
    unfold serviceNameFromInstanceName
    rw [heq, splitN2Chars_first_sep _ _ _ hpre]
  · intro s h
    exact (serviceNameFromInstanceName_eq_none s).mpr h
  · intro srv
    simp [srvToServiceRecord, Option.map_eq_none', serviceNameFromInstanceName_eq_none]
  · intro txt
    simp [txtToTextRecord, Option.map_eq_none', serviceNameFromInstanceName_eq_none]

theorem claim_service_name_derivation_witness :
    serviceNameFromInstanceName "nodots" = none ∧
    (∃ pre post, ("inst._s.local." : String).data = pre ++ '.' :: post ∧
      '.' ∉ pre ∧
      serviceNameFromInstanceName "inst._s.local." = some (String.mk post)) :=
  ⟨claim_service_name_derivation.2.1 "nodots" (by decide),
   claim_service_name_derivation.1 "inst._s.local." (by decide)⟩

/-- The key-value reading of one raw TXT string: the two halves of
`strings.Split(value, "=")` when that split has length exactly 2 (that is,
the string contains exactly one '='), nothing otherwise. -/
def kvOfTxtString (s : String) : Option (String × String) :=
  match splitChars '=' s.data with
  | [k, v] => some (String.mk k, String.mk v)
  | _ => none

theorem txtToMapStep_eq (values : List (String × String)) (s : String) :
    txtToMapStep values s =
      match kvOfTxtString s with
      | some kv => insertKey values kv.1 kv.2
      | none => values := by
  unfold txtToMapStep kvOfTxtString
  cases h : splitChars '=' s.data with
  | nil => rfl
  | cons a tail =>
      cases tail with
      | nil => rfl
      | cons b tail2 =>
          cases tail2 with
          | nil => rfl
          | cons c rest => rfl

theorem lookupKey_insertKey {K V : Type} [DecidableEq K] (l : List (K × V))
    (k : K) (v : V) (key : K) :
    lookupKey (insertKey l k v) key = if k = key then some v else lookupKey l key := by
  by_cases h : k = key
  · subst h
    simp [lookupKey_insertKey_self]
  · have h2 : key ≠ k := fun hh => h hh.symm
    simp [h, lookupKey_insertKey_ne _ _ _ h2]

/-- The binding the amended claim predicts for a key: the value of the last
well-formed `key=value` string with that key. -/
def lastValueFor (pairs : List (String × String)) (key : String) : Option String :=
  pairs.foldl (fun acc p => if p.1 = key then some p.2 else acc) none

theorem lookup_foldl_txtToMapStep :
    ∀ (l : List String) (init : List (String × String)) (key : String),
    lookupKey (l.foldl txtToMapStep init) key =
      (l.filterMap kvOfTxtString).foldl
        (fun acc p => if p.1 = key then some p.2 else acc) (lookupKey init key) := by
  intro l
  induction l with
  | nil => intro init key; rfl
  | cons s rest ih =>
      intro init key
      rw [List.foldl_cons]
      cases hkv : kvOfTxtString s with
      | none =>
          have hstep : txtToMapStep init s = init := by rw [txtToMapStep_eq, hkv]
          rw [hstep, ih, List.filterMap_cons_none hkv]
      | some kv =>
          have hstep : txtToMapStep init s = insertKey init kv.1 kv.2 := by
            rw [txtToMapStep_eq, hkv]
          rw [hstep, ih, List.filterMap_cons_some hkv, List.foldl_cons,
            lookupKey_insertKey]

theorem splitChars_ne_nil (sep : Char) : ∀ l : List Char, splitChars sep l ≠ [] := by
  intro l
  cases l with
  | nil => simp [splitChars]
  | cons c rest =>
      cases h : splitChars sep rest with
      | nil => simp [splitChars, h]
      | cons first others =>
          simp only [splitChars, h]
          split <;> simp

theorem splitChars_of_not_mem (sep : Char) :
    ∀ l : List Char, sep ∉ l → splitChars sep l = [l] := by
  intro l
  induction l with
  | nil => intro _; rfl
  | cons c rest ih =>
      intro h
      have h1 : ¬ c = sep := fun hc => h (hc ▸ List.mem_cons_self _ _)
      have h2 : sep ∉ rest := fun hm => h (List.mem_cons_of_mem _ hm)
      simp [splitChars, ih h2, h1]

theorem splitChars_single_sep (sep : Char) :
    ∀ (pre post : List Char), sep ∉ pre → sep ∉ post →
    splitChars sep (pre ++ sep :: post) = [pre, post] := by
  intro pre
  induction pre with
  | nil =>
      intro post _ hpost
      simp [splitChars, splitChars_of_not_mem sep post hpost]
  | cons c pre' ih =>
      intro post h hpost
      have h1 : ¬ c = sep := fun hc => h (hc ▸ List.mem_cons_self _ _)
      have h2 : sep ∉ pre' := fun hm => h (List.mem_cons_of_mem _ hm)
      simp [splitChars, ih post h2 hpost, h1]

theorem splitChars_length (sep : Char) :
    ∀ l : List Char, (splitChars sep l).length = l.count sep + 1 := by
  intro l
  induction l with
  | nil => rfl
  | cons c rest ih =>
      cases h : splitChars sep rest with
      | nil => exact absurd h (splitChars_ne_nil sep rest)
      | cons first others =>
          rw [h] at ih
          simp only [List.length_cons] at ih
          by_cases hc : c = sep
          · subst hc
            simp [splitChars, h, List.count_cons]
            omega
          · simp [splitChars, h, hc, List.count_cons]
            omega

/-- C6 counterexample: "a=1" contains exactly one '=' (its key-value reading
is ("a", "1")) and appears in the input list, yet the decoded map does not
bind "a" to "1" — the later string "a=2" overwrote that binding, so the map
does not bind, for *each* such string, its key to its value. -/
theorem claim_txt_decoder_counterexample :
    kvOfTxtString "a=1" = some ("a", "1") ∧
    "a=1" ∈ ["a=1", "a=2"] ∧
    lookupKey (txtToMap ["a=1", "a=2"]) "a" ≠ some "1" := by
  refine ⟨by decide, by decide, by decide⟩

/-- C6 (amended): for each raw string containing exactly one '=', its
key-value reading is (substring before the '=', substring after it); a string
without exactly one '=' reads as nothing; the decoded map binds each key to
the value of the *last* well-formed string with that key (later bindings
override earlier ones), and strings without exactly one '=' contribute
nothing to the map; decoding is total. -/
theorem claim_txt_decoder :
    (∀ pre post : String, '=' ∉ pre.data → '=' ∉ post.data →
      kvOfTxtString (pre ++ "=" ++ post) = some (pre, post)) ∧
    (∀ s : String, kvOfTxtString s = none ↔ s.data.count '=' ≠ 1) ∧
    (∀ (l : List String) (key : String),
      lookupKey (txtToMap l) key = lastValueFor (l.filterMap kvOfTxtString) key) ∧
    (∀ (l1 l2 : List String) (s : String), kvOfTxtString s = none →
      txtToMap (l1 ++ s :: l2) = txtToMap (l1 ++ l2)) := by
  refine ⟨?_, ?_, ?_, ?_⟩
  · intro pre post hpre hpost
    have hdata : (pre ++ "=" ++ post).data = pre.data ++ '=' :: post.data := by
      simp [String.data_append]
    unfold kvOfTxtString
    rw [hdata, splitChars_single_sep _ _ _ hpre hpost]
  · intro s
    have hlen := splitChars_length '=' s.data
    unfold kvOfTxtString
    cases h : splitChars '=' s.data with
    | nil => exact absurd h (splitChars_ne_nil '=' s.data)
    | cons a tail =>
        rw [h] at hlen
        cases tail with
        | nil =>
            simp only [List.length_cons, List.length_nil] at hlen
            constructor
            · intro _
              omega
            · intro _
              rfl
        | cons b tail2 =>
            cases tail2 with
            | nil =>
                simp only [List.length_cons, List.length_nil] at hlen
                constructor
                · intro hcontra
                  cases hcontra
                · intro hcount
                  exact absurd (by omega) hcount
            | cons c rest =>
                simp only [List.length_cons] at hlen
                constructor
                · intro _
                  omega
                · intro _
                  rfl
  · intro l key
    exact lookup_foldl_txtToMapStep l [] key
  · intro l1 l2 s h
    have hstep : ∀ X : List (String × String), txtToMapStep X s = X := fun X => by
      rw [txtToMapStep_eq, h]
    unfold txtToMap
    rw [List.foldl_append, List.foldl_cons, hstep, ← List.foldl_append]

theorem claim_txt_decoder_witness :
    kvOfTxtString ("key" ++ "=" ++ "value") = some ("key", "value") :=
  claim_txt_decoder.1 "key" "value" (by decide) (by decide)

/-- C10: `on_received` performs no TTL validation — a record with
remaining_ttl ≤ 0 whose identity is absent is stored and true is returned
(all four families); such a stored address record participates in
`resolved_instances`; it is removed by the next `on_time_elapsed` pass
(duration ≥ 0), so the non-positive-TTL unobservability guarantee holds only
after an eviction pass, not after insertion. -/
theorem claim_no_ttl_validation :
    (∀ (c : cache) (r : addressRecord), r.rr.remainingTimeToLive ≤ 0 →
      lookupKey c.addressRecords r.getID = none →
      (c.onAddressRecordReceived r).2 = true ∧
      lookupKey (c.onAddressRecordReceived r).1.addressRecords r.getID = some r) ∧
    (∀ (c : cache) (r : pointerRecord), r.rr.remainingTimeToLive ≤ 0 →
      lookupKey c.pointerRecords r.instanceName = none →
      (c.onPointerRecordReceived r).2 = true ∧
      lookupKey (c.onPointerRecordReceived r).1.pointerRecords r.instanceName = some r) ∧
    (∀ (c : cache) (r : serviceRecord), r.rr.remainingTimeToLive ≤ 0 →
      lookupKey c.serviceRecords r.instanceName = none →
      (c.onServiceRecordReceived r).2 = true ∧
      lookupKey (c.onServiceRecordReceived r).1.serviceRecords r.instanceName = some r) ∧
    (∀ (c : cache) (r : textRecord), r.rr.remainingTimeToLive ≤ 0 →
      lookupKey c.textRecords r.instanceName = none →
      (c.onTextRecordReceived r).2 = true ∧
      lookupKey (c.onTextRecordReceived r).1.textRecords r.instanceName = some r) ∧
    (∀ (c : cache) (i : serviceInstanceName) (srv : serviceRecord) (ar : addressRecord),
      (∃ p, (i, p) ∈ c.pointerRecords) →
      lookupKey c.serviceRecords i = some srv →
      (∃ txt, lookupKey c.textRecords i = some txt) →
      ar ∈ c.addressRecords.map Prod.snd → ar.name = srv.target →
      ar.rr.remainingTimeToLive ≤ 0 →
      ∃ inst, (({ address := ar.address.str, name := i } : serviceInstanceID), inst) ∈
        c.toResolvedInstances) ∧
    (∀ (c : cache) (k : addressRecordID) (d : Duration), 0 ≤ d →
      (∀ e ∈ c.addressRecords, e.1 = k → e.2.rr.remainingTimeToLive ≤ 0) →
      ∀ v', ¬ (k, v') ∈ (c.onTimeElapsed d).1.addressRecords) := by
  refine ⟨fun c r _ h => (onAddressRecordReceived_cases c r).1 h,
    fun c r _ h => (onPointerRecordReceived_cases c r).1 h,
    fun c r _ h => (onServiceRecordReceived_cases c r).1 h,
    fun c r _ h => (onTextRecordReceived_cases c r).1 h, ?_, ?_⟩
  · rintro c i srv ar ⟨p, hp⟩ hsrv ⟨txt, htxt⟩ hmap hname httl
    refine ⟨{ Address := ar.address, InstanceName := i, Port := srv.port,
              ServiceName := srv.serviceName, TextRecords := txt.values }, ?_⟩
    rw [mem_toResolvedInstances]
    exact ⟨i, p, hp, srv, hsrv, txt, htxt, ar,
      List.mem_filter.mpr ⟨hmap, by simpa using hname⟩, rfl, rfl⟩
  · intro c k d hd hall v' hv'
    obtain ⟨v, hv, rfl, ha⟩ := (elapseRecords_mem _ _ _ _ _).mp hv'
    have h1 := hall (k, v) hv rfl
    simp [resourceRecord.elapse] at ha h1
    linarith

/-- An address record received with wire TTL 0: both TTL fields are zero. -/
def zeroTTLAddress : addressRecord :=
  { address := { str := "10.0.0.9", isV4 := true }, name := "host.local.",
    rr := { cacheFlush := false, initialTimeToLive := 0, remainingTimeToLive := 0 } }

/-- The full-join sample cache with its address record replaced by the
zero-TTL one. -/
def zeroTTLCache : cache :=
  { sampleResolveCache with addressRecords := [(zeroTTLAddress.getID, zeroTTLAddress)] }

theorem claim_no_ttl_validation_witness :
    ((newCache.onAddressRecordReceived zeroTTLAddress).2 = true ∧
      lookupKey (newCache.onAddressRecordReceived zeroTTLAddress).1.addressRecords
        zeroTTLAddress.getID = some zeroTTLAddress) ∧
    (∃ inst, (({ address := "10.0.0.9", name := "inst._s.local." } : serviceInstanceID),
        inst) ∈ zeroTTLCache.toResolvedInstances) ∧
    ¬ (zeroTTLAddress.getID, zeroTTLAddress) ∈
        (zeroTTLCache.onTimeElapsed 5).1.addressRecords :=
  ⟨claim_no_ttl_validation.1 newCache zeroTTLAddress (by decide) (by decide),
   claim_no_ttl_validation.2.2.2.2.1 zeroTTLCache "inst._s.local." resolveService
     zeroTTLAddress ⟨resolvePointer, by decide⟩ (by decide) ⟨resolveText, by decide⟩
     (by decide) (by decide) (by decide),
   claim_no_ttl_validation.2.2.2.2.2 zeroTTLCache zeroTTLAddress.getID 5 (by decide)
     (by decide) zeroTTLAddress⟩
